import Mathlib

/-!
Verification development for the monty JSON codec (`src/monty/json.py`).

The development shallowly embeds the core of `monty/json.py`:
the tagged-value encoder `MontyEncoder.default`, the recursive decoder
`MontyDecoder.process_decoded`, the auto-derive engine `MSONable.as_dict`,
the redirect-table loader `_load_redirect`, the sanitizer `jsanitize`
(with `_serialize_callable`), and the canonical-hash input pipeline of
`MSONable.unsafe_hash`.

Modelling conventions, stated once here:
* Python exceptions are modelled by `Except PyErr`; the distinct CPython
  exception classes that the code branches on (`TypeError`, `ValueError`,
  `OSError`, `AttributeError`, `KeyError`, `ImportError`,
  `NotImplementedError`) are constructors of `PyErr`.  Message texts of
  exceptions raised by library internals are representative; message texts
  that the source itself constructs are copied verbatim.
* JSON text is identified with its parsed tree (`JValue`): the stdlib
  `json.dumps`/`json.loads` pair (and `orjson`) is an external faithful
  codec and is modelled as the identity on trees.
* External collaborator types (datetime, uuid, pathlib, numpy, torch,
  pandas, bson) are modelled through the interface the core uses: a
  membership test (a `PyValue` constructor), a plain-payload extraction and
  a payload reconstruction.  `datetime` formatting/parsing is modelled
  concretely because the decoder's two-format fallback logic lives in the
  core.  `uuid.UUID`, `pathlib.Path` and `bson.ObjectId` are keyed by their
  canonical text form, on which extraction and reconstruction are mutually
  inverse.  Numbers are exact rationals; float rounding is out of scope.
-/

/-- Python exception values, by exception class plus message. -/
inductive PyErr where
  | typeError (msg : String)
  | valueError (msg : String)
  | osError (msg : String)
  | attributeError (msg : String)
  | keyError (msg : String)
  | importError (msg : String)
  | notImplementedError (msg : String)
  | recursionError
  deriving DecidableEq, Repr

/-! ## datetime: `str(o)` and the two `strptime` formats

`MontyEncoder.default` serializes a `datetime.datetime` as `str(o)`, which
CPython renders as `YYYY-MM-DD HH:MM:SS` followed by `.ffffff` exactly when
the microsecond field is nonzero.  `MontyDecoder.process_decoded` parses
with format `%Y-%m-%d %H:%M:%S.%f` and falls back to `%Y-%m-%d %H:%M:%S`
on `ValueError`.  The parsers below recognise the fixed-width layouts these
formats accept on printed datetimes, including the stdlib range validation
of the calendar fields. -/

/-- A `datetime.datetime` value (naive), field by field. -/
structure DT where
  year : Nat
  month : Nat
  day : Nat
  hour : Nat
  minute : Nat
  second : Nat
  usec : Nat
  deriving DecidableEq, Repr

/-- The fields a CPython `datetime` constructor accepts (days simplified to
at most 31 independently of month, which is all the proofs rely on). -/
def ValidDT (d : DT) : Prop :=
  1 ≤ d.year ∧ d.year ≤ 9999 ∧ 1 ≤ d.month ∧ d.month ≤ 12 ∧
  1 ≤ d.day ∧ d.day ≤ 31 ∧ d.hour ≤ 23 ∧ d.minute ≤ 59 ∧
  d.second ≤ 59 ∧ d.usec ≤ 999999

instance (d : DT) : Decidable (ValidDT d) := by
  unfold ValidDT; infer_instance

/-- Two-digit zero-padded rendering of `n < 100`, as characters. -/
def pad2 (n : Nat) : List Char :=
  [Nat.digitChar (n / 10 % 10), Nat.digitChar (n % 10)]

/-- Four-digit zero-padded rendering of `n < 10000`, as characters. -/
def pad4 (n : Nat) : List Char :=
  [Nat.digitChar (n / 1000 % 10), Nat.digitChar (n / 100 % 10),
   Nat.digitChar (n / 10 % 10), Nat.digitChar (n % 10)]

/-- Six-digit zero-padded rendering of `n < 1000000`, as characters. -/
def pad6 (n : Nat) : List Char :=
  [Nat.digitChar (n / 100000 % 10), Nat.digitChar (n / 10000 % 10),
   Nat.digitChar (n / 1000 % 10), Nat.digitChar (n / 100 % 10),
   Nat.digitChar (n / 10 % 10), Nat.digitChar (n % 10)]

/-- Characters of `str(o)` for a `datetime` `o`: isoformat with a space
separator, the fractional part present exactly when `usec` is nonzero. -/
def dtChars (d : DT) : List Char :=
  pad4 d.year ++ ['-'] ++ pad2 d.month ++ ['-'] ++
  pad2 d.day ++ [' '] ++ pad2 d.hour ++ [':'] ++
  pad2 d.minute ++ [':'] ++ pad2 d.second ++
  (if d.usec = 0 then [] else ['.'] ++ pad6 d.usec)

/-- `str(o)` for a `datetime` `o`. -/
def dtStr (d : DT) : String := String.mk (dtChars d)

/-- Numeric value of a decimal digit character. -/
def digitVal (c : Char) : Nat := c.toNat - 48

/-- Recombine two decimal digit characters. -/
def val2 (a b : Char) : Nat := digitVal a * 10 + digitVal b

/-- Recombine four decimal digit characters. -/
def val4 (a b c d : Char) : Nat :=
  digitVal a * 1000 + digitVal b * 100 + digitVal c * 10 + digitVal d

/-- Recombine six decimal digit characters. -/
def val6 (a b c d e f : Char) : Nat :=
  digitVal a * 100000 + digitVal b * 10000 + digitVal c * 1000 +
  digitVal d * 100 + digitVal e * 10 + digitVal f

/-- The calendar-field validation shared by both parse formats. -/
def dtFieldsOk (y mo dy h mi s : Nat) : Bool :=
  1 ≤ y && y ≤ 9999 && 1 ≤ mo && mo ≤ 12 && 1 ≤ dy && dy ≤ 31 &&
  h ≤ 23 && mi ≤ 59 && s ≤ 59

/-- `datetime.strptime(s, "%Y-%m-%d %H:%M:%S.%f")` on the strings
`str(datetime)` can print: fixed-width layout with fractional part. -/
def strptimeFrac (s : String) : Option DT :=
  match s.data with
  | [y1, y2, y3, y4, '-', m1, m2, '-', d1, d2, ' ', h1, h2, ':',
     i1, i2, ':', s1, s2, '.', u1, u2, u3, u4, u5, u6] =>
    if ([y1, y2, y3, y4, m1, m2, d1, d2, h1, h2, i1, i2, s1, s2,
         u1, u2, u3, u4, u5, u6].all Char.isDigit) then
      let y := val4 y1 y2 y3 y4
      let mo := val2 m1 m2
      let dy := val2 d1 d2
      let h := val2 h1 h2
      let mi := val2 i1 i2
      let sec := val2 s1 s2
      if dtFieldsOk y mo dy h mi sec then
        some ⟨y, mo, dy, h, mi, sec, val6 u1 u2 u3 u4 u5 u6⟩
      else none
    else none
  | _ => none

/-- `datetime.strptime(s, "%Y-%m-%d %H:%M:%S")` on the strings
`str(datetime)` can print: fixed-width layout without fractional part. -/
def strptimeNoFrac (s : String) : Option DT :=
  match s.data with
  | [y1, y2, y3, y4, '-', m1, m2, '-', d1, d2, ' ', h1, h2, ':',
     i1, i2, ':', s1, s2] =>
    if ([y1, y2, y3, y4, m1, m2, d1, d2, h1, h2, i1, i2, s1, s2].all
        Char.isDigit) then
      let y := val4 y1 y2 y3 y4
      let mo := val2 m1 m2
      let dy := val2 d1 d2
      let h := val2 h1 h2
      let mi := val2 i1 i2
      let sec := val2 s1 s2
      if dtFieldsOk y mo dy h mi sec then
        some ⟨y, mo, dy, h, mi, sec, 0⟩
      else none
    else none
  | _ => none

/-! ## JSON trees

The JSON-safe trees that `json.dumps` emits and `json.loads` returns.
Integers and floats are distinguished, as Python does.  Mutual inductives
(instead of `List` fields) keep every definition structurally recursive
and hence kernel-reducible. -/

mutual
/-- A parsed JSON value. -/
inductive JValue where
  | null : JValue
  | bool (b : Bool) : JValue
  | jint (n : Int) : JValue
  | jnum (q : Rat) : JValue
  | str (s : String) : JValue
  | arr (xs : JList) : JValue
  | obj (kvs : JObj) : JValue
  deriving DecidableEq, Repr
/-- A JSON array body. -/
inductive JList where
  | nil : JList
  | cons (hd : JValue) (tl : JList) : JList
  deriving DecidableEq, Repr
/-- A JSON object body: ordered string-keyed pairs. -/
inductive JObj where
  | nil : JObj
  | cons (k : String) (v : JValue) (tl : JObj) : JObj
  deriving DecidableEq, Repr
end

/-- Key membership in a JSON object, as Python `k in d`. -/
def JObj.hasKey : JObj → String → Bool
  | .nil, _ => false
  | .cons k _ tl, key => k == key || tl.hasKey key

/-- First value under a key, as Python `d[k]`/`d.get(k)`. -/
def JObj.find : JObj → String → Option JValue
  | .nil, _ => none
  | .cons k v tl, key => if k == key then some v else tl.find key

/-- Python truthiness of a JSON value (`if classname:`). -/
def jTruthy : JValue → Bool
  | .null => false
  | .bool b => b
  | .jint n => n != 0
  | .jnum q => q != 0
  | .str s => s != ""
  | .arr .nil => false
  | .arr _ => true
  | .obj .nil => false
  | .obj _ => true

/-- Structural prefix test on character lists. -/
def listPrefix : List Char → List Char → Bool
  | [], _ => true
  | _ :: _, [] => false
  | c :: cs, d :: ds => c == d && listPrefix cs ds

/-- Python `s.startswith(pre)`, structurally on characters (the stdlib
byte-position loop does not reduce definitionally). -/
def strStarts (s pre : String) : Bool := listPrefix pre.data s.data

/-- Substring search on character lists. -/
def hasSubList (needle : List Char) : List Char → Bool
  | [] => listPrefix needle []
  | c :: cs => listPrefix needle (c :: cs) || hasSubList needle cs

/-- Python `s.split(sep)` for a one-character separator, structurally. -/
def splitCharAux (sep : Char) (acc : List Char) : List Char → List String
  | [] => [String.mk acc.reverse]
  | c :: cs =>
    if c == sep then String.mk acc.reverse :: splitCharAux sep [] cs
    else splitCharAux sep (c :: acc) cs

/-- Python `s.split(".")`. -/
def splitDots (s : String) : List String := splitCharAux '.' [] s.data

/-- Join strings with a separator. -/
def joinSep (sep : String) : List String → String
  | [] => ""
  | [s] => s
  | s :: rest => s ++ sep ++ joinSep sep rest

/-! ## numpy / torch array payloads

An n-dimensional numeric array is a nested tree of scalar leaves.  Each
leaf carries a real and an imaginary rational component; real-dtype arrays
are those whose leaves all have imaginary component `0`. -/

mutual
/-- Nested numeric data of an array or tensor. -/
inductive NpData where
  | leaf (re im : Rat) : NpData
  | node (xs : NpList) : NpData
  deriving DecidableEq, Repr
/-- A level of nested numeric data. -/
inductive NpList where
  | nil : NpList
  | cons (hd : NpData) (tl : NpList) : NpList
  deriving DecidableEq, Repr
end

mutual
/-- `o.tolist()` of a real-dtype array: nested lists of numbers. -/
def NpData.toListJ : NpData → JValue
  | .leaf re _ => .jnum re
  | .node xs => .arr xs.toListJ
/-- Elementwise `tolist` of a level. -/
def NpList.toListJ : NpList → JList
  | .nil => .nil
  | .cons x tl => .cons x.toListJ tl.toListJ
end

mutual
/-- `o.real.tolist()`: the real components, same nesting. -/
def NpData.realJ : NpData → JValue
  | .leaf re _ => .jnum re
  | .node xs => .arr xs.realJ
/-- Elementwise real components of a level. -/
def NpList.realJ : NpList → JList
  | .nil => .nil
  | .cons x tl => .cons x.realJ tl.realJ
end

mutual
/-- `o.imag.tolist()`: the imaginary components, same nesting. -/
def NpData.imagJ : NpData → JValue
  | .leaf _ im => .jnum im
  | .node xs => .arr xs.imagJ
/-- Elementwise imaginary components of a level. -/
def NpList.imagJ : NpList → JList
  | .nil => .nil
  | .cons x tl => .cons x.imagJ tl.imagJ
end

mutual
/-- `np.array(data, dtype=...)` on a nested JSON list of plain numbers:
`some` on well-formed nested numeric lists, `none` where numpy would
reject the input. -/
def npFromJ : JValue → Option NpData
  | .jint n => some (.leaf (n : Rat) 0)
  | .jnum q => some (.leaf q 0)
  | .arr xs => (npFromJList xs).map .node
  | _ => none
/-- Elementwise parse of a level. -/
def npFromJList : JList → Option NpList
  | .nil => some .nil
  | .cons x tl =>
    match npFromJ x, npFromJList tl with
    | some x2, some tl2 => some (.cons x2 tl2)
    | _, _ => none
end

mutual
/-- `np.array(r) + np.array(i) * 1j` for one `(r, i)` pair drawn from
`zip(*data)`: elementwise recombination of two equally-shaped nested
numeric lists.  Shape mismatch or non-numeric content is the broadcast /
iteration failure numpy raises. -/
def npCombine : JValue → JValue → Except PyErr NpData
  | .jint a, .jint b => .ok (.leaf (a : Rat) (b : Rat))
  | .jint a, .jnum b => .ok (.leaf (a : Rat) b)
  | .jnum a, .jint b => .ok (.leaf a (b : Rat))
  | .jnum a, .jnum b => .ok (.leaf a b)
  | .arr xs, .arr ys => (npCombineList xs ys).map .node
  | _, _ => .error (.typeError "unsupported operand type for complex recombination")
/-- Pairwise recombination of one nesting level. -/
def npCombineList : JList → JList → Except PyErr NpList
  | .nil, .nil => .ok .nil
  | .cons x xs, .cons y ys => do
    let z ← npCombine x y
    let zs ← npCombineList xs ys
    .ok (.cons z zs)
  | _, _ => .error (.valueError "operands could not be broadcast together")
end

/-- The complex-branch body shared by the numpy and torch decode paths:
`[np.array(r) + np.array(i) * 1j for r, i in zip(*d[\x22data\x22])]`.
`zip(*data)` requires `data` to hold exactly two iterables (the real and
imaginary nests); on a scalar entry, iteration raises `TypeError`. -/
def npDecodeComplexData : JValue → Except PyErr NpData
  | .arr (.cons (.arr rs) (.cons (.arr is_) .nil)) =>
    (npCombineList rs is_).map .node
  | .arr (.cons _ (.cons _ .nil)) =>
    .error (.typeError "zip argument is not iterable")
  | .arr _ => .error (.valueError "not enough values to unpack")
  | _ => .error (.typeError "zip argument after * must be an iterable")

/-! ## The Python value universe

`PyValue` covers the runtime values the core dispatches on: JSON-native
primitives and containers, the built-in collaborator types, generic
objects (with the feature flags the encoder's `isinstance`/`hasattr`
dispatch reads), auto-derive `MSONable` objects, plus the values the
decoder produces (modules, classes, reconstructed instances). -/

/-- Feature flags and identity of a generic (non-auto-derive) object, as
seen by the encoder's and sanitizer's dispatch tests. -/
structure ObjInfo where
  module : String
  cls : String
  qualname : String
  version : Option String
  isCallable : Bool
  isBuiltinFunc : Bool
  isMSONable : Bool
  isPydantic : Bool
  isDataclass : Bool
  hasAsDict : Bool
  deriving DecidableEq, Repr

/-- Identity and constructor signature of an auto-derive `MSONable`
object: `getfullargspec(cls.__init__)` split into positional args
(including the receiver), keyword-only args, and the variadic name. -/
structure MsonInfo where
  module : String
  cls : String
  version : Option String
  initArgs : List String
  kwonly : List String
  varargs : Option String
  deriving DecidableEq, Repr

/-- What the decoder learns about a class found by `getattr(mod, name)`:
its identity and the `hasattr`/`issubclass` facts the reconstruction
chain branches on. -/
structure ClassInfo where
  module : String
  name : String
  hasFromDict : Bool
  isEnum : Bool
  isPydantic : Bool
  isDataclass : Bool
  isMSONable : Bool
  deriving DecidableEq, Repr

/-- Which reconstruction path the decoder used for a generic object. -/
inductive RMode where
  | viaFromDict : RMode
  | viaPydantic : RMode
  | viaDataclass : RMode
  deriving DecidableEq, Repr

mutual
/-- A Python runtime value. -/
inductive PyValue where
  | none : PyValue
  | bool (b : Bool) : PyValue
  | int (n : Int) : PyValue
  | float (q : Rat) : PyValue
  | str (s : String) : PyValue
  | bytes (s : String) : PyValue
  | list (xs : PyList) : PyValue
  | tuple (xs : PyList) : PyValue
  | dict (kvs : PyDict) : PyValue
  | datetime (d : DT) : PyValue
  | uuid (s : String) : PyValue
  | path (s : String) : PyValue
  | objectId (s : String) : PyValue
  | npArray (dtype : String) (data : NpData) : PyValue
  | npScalar (dtype : String) (val : Rat) : PyValue
  | tensor (dtype : String) (data : NpData) : PyValue
  | dataframe (records : JValue) : PyValue
  | series (records : JValue) : PyValue
  | obj (info : ObjInfo) (bound : OptPy) (pyd : PyDict) (dcf : PyDict)
      (adict : PyDict) (ev : OptPy) : PyValue
  | mson (info : MsonInfo) (attrs : PyDict) (ev : OptPy) : PyValue
  | pyClass (ci : ClassInfo) (attrs : PyDict) : PyValue
  | pyModule (attrs : PyDict) : PyValue
  | constructed (mode : RMode) (module cls : String) (fields : PyDict) : PyValue
  | enumOf (module cls : String) (value : JValue) : PyValue
  deriving DecidableEq, Repr
/-- A Python list body. -/
inductive PyList where
  | nil : PyList
  | cons (hd : PyValue) (tl : PyList) : PyList
  deriving DecidableEq, Repr
/-- A Python dict body: ordered key/value pairs, keys arbitrary values. -/
inductive PyDict where
  | nil : PyDict
  | cons (k v : PyValue) (tl : PyDict) : PyDict
  deriving DecidableEq, Repr
/-- An optional Python value (model of `None`-or-value attribute slots). -/
inductive OptPy where
  | none : OptPy
  | some (v : PyValue) : OptPy
  deriving DecidableEq, Repr
end

/-- Value under a string key, as Python `d.get(k)` on a str-keyed dict. -/
def PyDict.findStr : PyDict → String → Option PyValue
  | .nil, _ => Option.none
  | .cons (.str k) v tl, key => if k == key then some v else tl.findStr key
  | .cons _ _ tl, key => tl.findStr key

/-- Key membership for a string key, as Python `k in d` / `hasattr`. -/
def PyDict.hasStr (d : PyDict) (key : String) : Bool :=
  (d.findStr key).isSome

/-- Python `d[k] = v` on a str-keyed dict: overwrite in place if the key
exists, append otherwise. -/
def PyDict.assign : PyDict → String → PyValue → PyDict
  | .nil, key, v => .cons (.str key) v .nil
  | .cons (.str k) w tl, key, v =>
    if k == key then .cons (.str k) v tl else .cons (.str k) w (tl.assign key v)
  | .cons k w tl, key, v => .cons k w (tl.assign key v)

/-- Python `d.update(other)` on str-keyed dicts, entry by entry. -/
def PyDict.updateWith : PyDict → PyDict → Except PyErr PyDict
  | d, .nil => .ok d
  | d, .cons (.str k) v tl => (d.assign k v).updateWith tl
  | _, .cons _ _ _ => .error (.typeError "keywords must be strings")

/-- Concatenation of dict entries (used to build dicts, not to update). -/
def PyDict.append : PyDict → PyDict → PyDict
  | .nil, d => d
  | .cons k v tl, d => .cons k v (tl.append d)

mutual
/-- The Python value a plain (tag-free) JSON tree denotes: what
`json.loads` hands to `process_decoded` and what the latter returns
unchanged. -/
def jToPy : JValue → PyValue
  | .null => .none
  | .bool b => .bool b
  | .jint n => .int n
  | .jnum q => .float q
  | .str s => .str s
  | .arr xs => .list (jToPyList xs)
  | .obj kvs => .dict (jToPyObj kvs)
/-- Elementwise on arrays. -/
def jToPyList : JList → PyList
  | .nil => .nil
  | .cons x tl => .cons (jToPy x) (jToPyList tl)
/-- Elementwise on objects; keys become Python strings. -/
def jToPyObj : JObj → PyDict
  | .nil => .nil
  | .cons k v tl => .cons (.str k) (jToPy v) (jToPyObj tl)
end

mutual
/-- The JSON tree of a JSON-native Python value, `some` exactly on values
`json.dumps` accepts without the Monty default handler. -/
def pyToJ : PyValue → Option JValue
  | .none => some .null
  | .bool b => some (.bool b)
  | .int n => some (.jint n)
  | .float q => some (.jnum q)
  | .str s => some (.str s)
  | .list xs => (pyToJList xs).map .arr
  | .dict kvs => (pyToJObj kvs).map .obj
  | _ => Option.none
/-- Elementwise on lists. -/
def pyToJList : PyList → Option JList
  | .nil => some .nil
  | .cons x tl =>
    match pyToJ x, pyToJList tl with
    | some x2, some tl2 => some (.cons x2 tl2)
    | _, _ => Option.none
/-- Elementwise on dicts; keys must be strings. -/
def pyToJObj : PyDict → Option JObj
  | .nil => some .nil
  | .cons (.str k) v tl =>
    match pyToJ v, pyToJObj tl with
    | some v2, some tl2 => some (.cons k v2 tl2)
    | _, _ => Option.none
  | .cons _ _ _ => Option.none
end

mutual
/-- A value already in plain JSON-safe form: nested `None`/bool/int/float/
string primitives, lists, and string-keyed dicts. -/
def isPlain : PyValue → Bool
  | .none | .bool _ | .int _ | .float _ | .str _ => true
  | .list xs => isPlainList xs
  | .dict kvs => isPlainDict kvs
  | _ => false
/-- Plainness of list elements. -/
def isPlainList : PyList → Bool
  | .nil => true
  | .cons x tl => isPlain x && isPlainList tl
/-- Plainness of dict entries: string keys, plain values. -/
def isPlainDict : PyDict → Bool
  | .nil => true
  | .cons (.str _) v tl => isPlain v && isPlainDict tl
  | .cons _ _ _ => false
end

mutual
/-- A JSON tree containing no tagged node: no object carries `@module`
together with `@class` or `@callable`.  Such trees decode to themselves. -/
def isTagFree : JValue → Bool
  | .arr xs => isTagFreeList xs
  | .obj kvs =>
    !(kvs.hasKey "@module" && (kvs.hasKey "@class" || kvs.hasKey "@callable"))
      && isTagFreeObj kvs
  | _ => true
/-- Tag-freeness of array elements. -/
def isTagFreeList : JList → Bool
  | .nil => true
  | .cons x tl => isTagFree x && isTagFreeList tl
/-- Tag-freeness of object values. -/
def isTagFreeObj : JObj → Bool
  | .nil => true
  | .cons _ v tl => isTagFree v && isTagFreeObj tl
end

/-! ## Encoder: `MontyEncoder.default`, `_serialize_callable`,
`MSONable.as_dict` -/

/-- Substring containment, Python `pat in s`. -/
def containsSub (s pat : String) : Bool := hasSubList pat.data s.data

/-- Representative text of a float on the exact-rational model
(`repr(float)` for integral values; non-decimal rationals have no float
counterpart and get a fraction rendering). -/
def ratRepr (q : Rat) : String :=
  if q.den = 1 then toString q.num ++ ".0"
  else toString q.num ++ "/" ++ toString q.den

/-- The Python type name of a value, `o.__class__.__name__`. -/
def pyTypeName : PyValue → String
  | .none => "NoneType"
  | .bool _ => "bool"
  | .int _ => "int"
  | .float _ => "float"
  | .str _ => "str"
  | .bytes _ => "bytes"
  | .list _ => "list"
  | .tuple _ => "tuple"
  | .dict _ => "dict"
  | .datetime _ => "datetime"
  | .uuid _ => "UUID"
  | .path _ => "PosixPath"
  | .objectId _ => "ObjectId"
  | .npArray _ _ => "ndarray"
  | .npScalar _ _ => "generic"
  | .tensor _ _ => "Tensor"
  | .dataframe _ => "DataFrame"
  | .series _ => "Series"
  | .obj info _ _ _ _ _ => info.cls
  | .mson info _ _ => info.cls
  | .pyClass _ _ => "type"
  | .pyModule _ => "module"
  | .constructed _ _ c _ => c
  | .enumOf _ c _ => c

/-- `str(obj)`.  Exact for the text-like built-ins the sanitizer
stringifies (paths, datetimes, primitives); a deterministic
representative of `repr` for other objects (CPython embeds the object
address there, which has no counterpart in a pure model). -/
def pyStr : PyValue → String
  | .none => "None"
  | .bool true => "True"
  | .bool false => "False"
  | .int n => toString n
  | .float q => ratRepr q
  | .str s => s
  | .bytes s => "b" ++ s
  | .datetime d => dtStr d
  | .uuid s => s
  | .path s => s
  | .objectId s => s
  | v => "<" ++ pyTypeName v ++ " object>"

/-- What `MontyEncoder.default` returns: either a JSON-ready tree (the
built-in branches, whose payloads are JSON-native) or a Python dict that
`json.dumps` keeps encoding (the generic-object branches). -/
inductive EncOut where
  | json (j : JValue) : EncOut
  | pydict (d : PyDict) : EncOut

/-- The Python value a `default` result stands for (used where the result
is embedded into another structure, e.g. a callable's `@bound` slot). -/
def encOutToPy : EncOut → PyValue
  | .json j => jToPy j
  | .pydict d => .dict d

/-- The `@version` value `import_module(parent).__version__` produces:
the version string, or `None` when the lookup raises
`AttributeError`/`ImportError`. -/
def optVal : Option String → PyValue
  | Option.some s => .str s
  | Option.none => .none

/-- Lines 458-468 of the source: after a generic branch produced a base
dict, ensure `@module`/`@class` are present and attach `@version`. -/
def ensureTagsS (module cls : String) (version : Option String)
    (d : PyDict) : PyDict :=
  let d1 := if d.hasStr "@module" then d else d.assign "@module" (.str module)
  let d2 := if d1.hasStr "@class" then d1 else d1.assign "@class" (.str cls)
  if d2.hasStr "@version" then d2 else d2.assign "@version" (optVal version)

/-- The fixed `NotImplementedError` message of `MSONable.as_dict`
(verbatim from the source). -/
def msonFixedMsg : String :=
  "Unable to automatically determine as_dict format from class. MSONAble requires all args to be present as either self.argname or self._argname, and kwargs to be present under a self.kwargs variable to automatically determine the dict format. Alternatively, you can implement both as_dict and from_dict."

/-- The constructor-parameter loop of `MSONable.as_dict`: for each arg
name except `self`, read `self.<name>` else `self._<name>` (attribute
values already passed through `recursive_as_dict`, supplied in
`rAttrs`), else raise the fixed `NotImplementedError`. -/
def mkAsDictLoop (rAttrs : PyDict) : List String → PyDict → Except PyErr PyDict
  | [], d => .ok d
  | c :: rest, d =>
    if c == "self" then mkAsDictLoop rAttrs rest d
    else
      match rAttrs.findStr c with
      | Option.some a => mkAsDictLoop rAttrs rest (d.assign c a)
      | Option.none =>
        match rAttrs.findStr ("_" ++ c) with
        | Option.some a => mkAsDictLoop rAttrs rest (d.assign c a)
        | Option.none => .error (.notImplementedError msonFixedMsg)

/-- `d.update(**getattr(self, key))` when the attribute exists:
a dict splices in, a non-mapping is the `TypeError` of `**`, absence is a
no-op. -/
def kwargsStep (attrs : PyDict) (key : String) (d : PyDict) :
    Except PyErr PyDict :=
  match attrs.findStr key with
  | Option.some (.dict kw) => d.updateWith kw
  | Option.some _ =>
    .error (.typeError "argument after ** must be a mapping")
  | Option.none => .ok d

/-- The variadic-positional splice: when the spec names a varargs
attribute and `getattr(self, name, None)` is not `None`, assign it raw. -/
def varargsStep (vo : Option String) (attrs d : PyDict) : PyDict :=
  match vo with
  | Option.some vn =>
    match attrs.findStr vn with
    | Option.some PyValue.none => d
    | Option.some a => d.assign vn a
    | Option.none => d
  | Option.none => d

/-- The enumeration-member step: record the underlying value. -/
def enumStep (ev : OptPy) (d : PyDict) : PyDict :=
  match ev with
  | .some v => d.assign "value" v
  | .none => d

/-- `MSONable.as_dict` after the attribute values have been converted by
`recursive_as_dict` (`rAttrs`); `attrs` keeps the raw attributes for the
`kwargs`/varargs/`_kwargs` splices, which the source adds unconverted. -/
def mkAsDict (info : MsonInfo) (rAttrs attrs : PyDict) (ev : OptPy) :
    Except PyErr PyDict := do
  let d0 : PyDict :=
    .cons (.str "@module") (.str info.module)
      (.cons (.str "@class") (.str info.cls)
        (.cons (.str "@version") (optVal info.version) .nil))
  let d1 ← mkAsDictLoop rAttrs (info.initArgs ++ info.kwonly) d0
  let d2 ← kwargsStep attrs "kwargs" d1
  let d3 := varargsStep info.varargs attrs d2
  let d4 ← kwargsStep attrs "_kwargs" d3
  .ok (enumStep ev d4)

mutual
/-- `recursive_as_dict` from `MSONable.as_dict`: lists and tuples map to
lists, dicts map values, objects exposing `as_dict` derive recursively,
non-MSONable dataclass instances get structural extraction plus tags,
everything else passes through. -/
def recursiveAsDict : PyValue → Except PyErr PyValue
  | .list xs => do
    let r ← recAsDictList xs
    .ok (.list r)
  | .tuple xs => do
    let r ← recAsDictList xs
    .ok (.list r)
  | .dict kvs => do
    let r ← recAsDictDict kvs
    .ok (.dict r)
  | .mson info attrs ev => do
    let r ← recAsDictDict attrs
    let d ← mkAsDict info r attrs ev
    .ok (.dict d)
  | .obj info bound pyd dcf adict ev =>
    if info.hasAsDict then .ok (.dict adict)
    else if info.isDataclass then
      .ok (.dict ((dcf.assign "@module" (.str info.module)).assign
        "@class" (.str info.cls)))
    else .ok (.obj info bound pyd dcf adict ev)
  | v => .ok v
/-- `recursive_as_dict` over list elements. -/
def recAsDictList : PyList → Except PyErr PyList
  | .nil => .ok .nil
  | .cons x tl => do
    let x2 ← recursiveAsDict x
    let tl2 ← recAsDictList tl
    .ok (.cons x2 tl2)
/-- `recursive_as_dict` over dict values (keys kept). -/
def recAsDictDict : PyDict → Except PyErr PyDict
  | .nil => .ok .nil
  | .cons k v tl => do
    let v2 ← recursiveAsDict v
    let tl2 ← recAsDictDict tl
    .ok (.cons k v2 tl2)
/-- `MontyEncoder.default`, the fixed-priority dispatch of the encoder,
branch for branch in source order. -/
def defaultE : PyValue → Except PyErr EncOut
  | .datetime d =>
    .ok (.json (.obj (.cons "@module" (.str "datetime")
      (.cons "@class" (.str "datetime")
        (.cons "string" (.str (dtStr d)) .nil)))))
  | .uuid s =>
    .ok (.json (.obj (.cons "@module" (.str "uuid")
      (.cons "@class" (.str "UUID") (.cons "string" (.str s) .nil)))))
  | .path s =>
    .ok (.json (.obj (.cons "@module" (.str "pathlib")
      (.cons "@class" (.str "Path") (.cons "string" (.str s) .nil)))))
  | .tensor dt data =>
    if containsSub dt "Complex" then
      .ok (.json (.obj (.cons "@module" (.str "torch")
        (.cons "@class" (.str "Tensor")
          (.cons "dtype" (.str dt)
            (.cons "data" (.arr (.cons data.realJ (.cons data.imagJ .nil)))
              .nil))))))
    else
      .ok (.json (.obj (.cons "@module" (.str "torch")
        (.cons "@class" (.str "Tensor")
          (.cons "dtype" (.str dt)
            (.cons "data" data.toListJ .nil))))))
  | .npArray dt data =>
    if strStarts dt "complex" then
      .ok (.json (.obj (.cons "@module" (.str "numpy")
        (.cons "@class" (.str "array")
          (.cons "dtype" (.str dt)
            (.cons "data" (.arr (.cons data.realJ (.cons data.imagJ .nil)))
              .nil))))))
    else
      .ok (.json (.obj (.cons "@module" (.str "numpy")
        (.cons "@class" (.str "array")
          (.cons "dtype" (.str dt)
            (.cons "data" data.toListJ .nil))))))
  | .npScalar dt v =>
    if strStarts dt "int" || strStarts dt "uint" then
      .ok (.json (.jint v.num))
    else .ok (.json (.jnum v))
  | .dataframe r =>
    .ok (.json (.obj (.cons "@module" (.str "pandas")
      (.cons "@class" (.str "DataFrame") (.cons "data" r .nil)))))
  | .series r =>
    .ok (.json (.obj (.cons "@module" (.str "pandas")
      (.cons "@class" (.str "Series") (.cons "data" r .nil)))))
  | .objectId s =>
    .ok (.json (.obj (.cons "@module" (.str "bson.objectid")
      (.cons "@class" (.str "ObjectId") (.cons "oid" (.str s) .nil)))))
  | .obj info bound pyd dcf adict ev =>
    if info.isCallable && !info.isMSONable then do
      let d ← serializeCallable info bound
      .ok (.pydict d)
    else if info.isPydantic then
      .ok (.pydict (ensureTagsS info.module info.cls info.version pyd))
    else if !info.isMSONable && info.isDataclass then
      .ok (.pydict (ensureTagsS info.module info.cls info.version dcf))
    else if info.hasAsDict then
      .ok (.pydict (ensureTagsS info.module info.cls info.version adict))
    else
      match ev with
      | .some v =>
        .ok (.pydict (ensureTagsS info.module info.cls info.version
          (.cons (.str "value") v .nil)))
      | .none =>
        .error (.typeError
          ("Object of type " ++ info.cls ++ " is not JSON serializable"))
  | .mson info attrs ev => do
    let r ← recAsDictDict attrs
    let d ← mkAsDict info r attrs ev
    .ok (.pydict (ensureTagsS info.module info.cls info.version d))
  | v =>
    .error (.typeError
      ("Object of type " ++ pyTypeName v ++ " is not JSON serializable"))
/-- `_serialize_callable`: builtin callables drop their owner; a bound
owner is encoded with `MontyEncoder.default`, a `TypeError` there being
replaced by the fixed bound-method message (other exceptions pass
through). -/
def serializeCallable (info : ObjInfo) (bound : OptPy) : Except PyErr PyDict :=
  match bound with
  | .none =>
    .ok (.cons (.str "@module") (.str info.module)
      (.cons (.str "@callable") (.str info.qualname)
        (.cons (.str "@bound") .none .nil)))
  | .some o =>
    if info.isBuiltinFunc then
      .ok (.cons (.str "@module") (.str info.module)
        (.cons (.str "@callable") (.str info.qualname)
          (.cons (.str "@bound") .none .nil)))
    else
      match defaultE o with
      | .ok out =>
        .ok (.cons (.str "@module") (.str info.module)
          (.cons (.str "@callable") (.str info.qualname)
            (.cons (.str "@bound") (encOutToPy out) .nil)))
      | .error (.typeError _) =>
        .error (.typeError
          "Only bound methods of classes or MSONable instances are supported.")
      | .error e => .error e
end

/-! ## Spec-side encoder dispatch

`specDefault` is written from the wording of spec section 4.1 (the
numbered fixed-priority dispatch list), to be compared against
`defaultE`, which is written from the source.  Branch numbers below are
the spec's. -/

/-- The encoder dispatch as spec section 4.1 words it: thirteen branches
in fixed priority order, first match wins; after branches 9-12 the tags
and version are ensured; no match is the hard not-serializable failure. -/
def specDefault : PyValue → Except PyErr EncOut
  | .datetime d =>
    .ok (.json (.obj (.cons "@module" (.str "datetime")
      (.cons "@class" (.str "datetime")
        (.cons "string" (.str (dtStr d)) .nil)))))
  | .uuid s =>
    .ok (.json (.obj (.cons "@module" (.str "uuid")
      (.cons "@class" (.str "UUID") (.cons "string" (.str s) .nil)))))
  | .path s =>
    .ok (.json (.obj (.cons "@module" (.str "pathlib")
      (.cons "@class" (.str "Path") (.cons "string" (.str s) .nil)))))
  | .tensor dt data =>
    if containsSub dt "Complex" then
      .ok (.json (.obj (.cons "@module" (.str "torch")
        (.cons "@class" (.str "Tensor")
          (.cons "dtype" (.str dt)
            (.cons "data" (.arr (.cons data.realJ (.cons data.imagJ .nil)))
              .nil))))))
    else
      .ok (.json (.obj (.cons "@module" (.str "torch")
        (.cons "@class" (.str "Tensor")
          (.cons "dtype" (.str dt)
            (.cons "data" data.toListJ .nil))))))
  | .npArray dt data =>
    if strStarts dt "complex" then
      .ok (.json (.obj (.cons "@module" (.str "numpy")
        (.cons "@class" (.str "array")
          (.cons "dtype" (.str dt)
            (.cons "data" (.arr (.cons data.realJ (.cons data.imagJ .nil)))
              .nil))))))
    else
      .ok (.json (.obj (.cons "@module" (.str "numpy")
        (.cons "@class" (.str "array")
          (.cons "dtype" (.str dt)
            (.cons "data" data.toListJ .nil))))))
  | .npScalar dt v =>
    if strStarts dt "int" || strStarts dt "uint" then
      .ok (.json (.jint v.num))
    else .ok (.json (.jnum v))
  | .dataframe r =>
    .ok (.json (.obj (.cons "@module" (.str "pandas")
      (.cons "@class" (.str "DataFrame") (.cons "data" r .nil)))))
  | .series r =>
    .ok (.json (.obj (.cons "@module" (.str "pandas")
      (.cons "@class" (.str "Series") (.cons "data" r .nil)))))
  | .objectId s =>
    .ok (.json (.obj (.cons "@module" (.str "bson.objectid")
      (.cons "@class" (.str "ObjectId") (.cons "oid" (.str s) .nil)))))
  | .obj info bound pyd dcf adict ev =>
    if info.isCallable && !info.isMSONable then do
      let d ← serializeCallable info bound
      .ok (.pydict d)
    else if info.isPydantic then
      .ok (.pydict (ensureTagsS info.module info.cls info.version pyd))
    else if !info.isMSONable && info.isDataclass then
      .ok (.pydict (ensureTagsS info.module info.cls info.version dcf))
    else if info.hasAsDict then
      .ok (.pydict (ensureTagsS info.module info.cls info.version adict))
    else
      match ev with
      | .some v =>
        .ok (.pydict (ensureTagsS info.module info.cls info.version
          (.cons (.str "value") v .nil)))
      | .none =>
        .error (.typeError
          ("Object of type " ++ info.cls ++ " is not JSON serializable"))
  | .mson info attrs ev => do
    let r ← recAsDictDict attrs
    let d ← mkAsDict info r attrs ev
    .ok (.pydict (ensureTagsS info.module info.cls info.version d))
  | v =>
    .error (.typeError
      ("Object of type " ++ pyTypeName v ++ " is not JSON serializable"))

/-! ## Decoder: `MontyDecoder.process_decoded`

The decoder's dynamic environment — `MSONable.REDIRECT` plus what
`__import__`/`getattr` can reach — is a `DWorld` parameter. -/

/-- The decoder's environment: the redirect table (as flat
(module, class) pairs with the first matching entry winning, as in the
two-level dict the loader builds) and the importable modules with their
attributes. -/
structure DWorld where
  redirect : List ((String × String) × (String × String))
  modules : List (String × PyDict)

/-- `MSONable.REDIRECT.get(modname, {}).get(classname)`. -/
def lookupRedirect (t : List ((String × String) × (String × String)))
    (m c : String) : Option (String × String) :=
  match t with
  | [] => Option.none
  | ((om, oc), tgt) :: tl =>
    if om == m && oc == c then some tgt else lookupRedirect tl m c

/-- `__import__(modname, ...)`: the module's attribute dict, if the
module exists. -/
def lookupMod (w : DWorld) (m : String) : Option PyDict :=
  match w.modules.find? (fun p => p.1 == m) with
  | Option.some p => some p.2
  | Option.none => Option.none

/-- `getattr(obj, name)` for the objects attribute walking can reach:
modules and classes expose their attribute dicts; anything else raises
`AttributeError` (modelled as `none`). -/
def getAttr : PyValue → String → Option PyValue
  | .pyModule attrs, a => attrs.findStr a
  | .pyClass _ attrs, a => attrs.findStr a
  | _, _ => Option.none

/-- The nested-attribute walk of the callable branch:
`for attr in objname: obj = getattr(obj, attr)`. -/
def walkAttrs : PyValue → List String → Option PyValue
  | v, [] => some v
  | v, s :: rest =>
    match getAttr v s with
    | Option.some v2 => walkAttrs v2 rest
    | Option.none => Option.none

/-- The module list the first decoder branch excludes:
`["bson.objectid", "numpy", "pandas", "torch"]`. -/
def excludedMod (m : String) : Bool :=
  m == "bson.objectid" || m == "numpy" || m == "pandas" || m == "torch"

mutual
/-- `MontyDecoder.process_decoded`, clause for clause in source order:
tagged nodes (redirect, then built-in shapes, then import/constructor
resolution, else the plain-mapping fallthrough), callable references,
lists, plain mappings, primitives. -/
def processDecoded (w : DWorld) : JValue → Except PyErr PyValue
  | .obj kvs =>
    if kvs.hasKey "@module" && kvs.hasKey "@class" then
      match kvs.find "@module", kvs.find "@class" with
      | Option.some (.str m0), Option.some (.str c0) =>
        let mc :=
          match lookupRedirect w.redirect m0 c0 with
          | Option.some tgt => tgt
          | Option.none => (m0, c0)
        if mc.2 == "" then do
          let d ← processPlainObj w kvs
          .ok (.dict d)
        else if mc.1 != "" && !excludedMod mc.1 then
          if mc.1 == "datetime" && mc.2 == "datetime" then
            match kvs.find "string" with
            | Option.some (.str s) =>
              match strptimeFrac s with
              | Option.some dt => .ok (.datetime dt)
              | Option.none =>
                match strptimeNoFrac s with
                | Option.some dt => .ok (.datetime dt)
                | Option.none =>
                  .error (.valueError "time data does not match format")
            | Option.some _ =>
              .error (.typeError "strptime argument must be str")
            | Option.none => .error (.keyError "string")
          else if mc.1 == "uuid" && mc.2 == "UUID" then
            match kvs.find "string" with
            | Option.some (.str s) => .ok (.uuid s)
            | Option.some _ => .error (.typeError "UUID badly formed")
            | Option.none => .error (.keyError "string")
          else if mc.1 == "pathlib" && mc.2 == "Path" then
            match kvs.find "string" with
            | Option.some (.str s) => .ok (.path s)
            | Option.some _ =>
              .error (.typeError "argument should be a str")
            | Option.none => .error (.keyError "string")
          else
            match lookupMod w mc.1 with
            | Option.none =>
              .error (.importError ("No module named " ++ mc.1))
            | Option.some attrs =>
              match attrs.findStr mc.2 with
              | Option.none => do
                let d ← processPlainObj w kvs
                .ok (.dict d)
              | Option.some (.pyClass ci _) =>
                if ci.hasFromDict then do
                  let fields ← processNonAt w kvs
                  .ok (.constructed .viaFromDict ci.module ci.name fields)
                else if ci.isEnum then
                  match kvs.find "value" with
                  | Option.some v => .ok (.enumOf ci.module ci.name v)
                  | Option.none => .error (.keyError "value")
                else if ci.isPydantic then do
                  let fields ← processNonAt w kvs
                  .ok (.constructed .viaPydantic ci.module ci.name fields)
                else if !ci.isMSONable && ci.isDataclass then do
                  let fields ← processNonAt w kvs
                  .ok (.constructed .viaDataclass ci.module ci.name fields)
                else do
                  let d ← processPlainObj w kvs
                  .ok (.dict d)
              | Option.some _ =>
                .error (.typeError "issubclass arg 1 must be a class")
        else if mc.1 == "torch" && mc.2 == "Tensor" then
          match kvs.find "dtype" with
          | Option.some (.str dt) =>
            match kvs.find "data" with
            | Option.some data =>
              if containsSub dt "Complex" then
                match npDecodeComplexData data with
                | .ok nd => .ok (.tensor dt nd)
                | .error e => .error e
              else
                match npFromJ data with
                | Option.some nd => .ok (.tensor dt nd)
                | Option.none =>
                  .error (.valueError "could not infer dtype of data")
            | Option.none => .error (.keyError "data")
          | Option.some _ => .error (.typeError "dtype must be str")
          | Option.none => .error (.keyError "dtype")
        else if mc.1 == "numpy" && mc.2 == "array" then
          match kvs.find "dtype" with
          | Option.some (.str dt) =>
            match kvs.find "data" with
            | Option.some data =>
              if strStarts dt "complex" then
                match npDecodeComplexData data with
                | .ok nd => .ok (.npArray dt nd)
                | .error e => .error e
              else
                match npFromJ data with
                | Option.some nd => .ok (.npArray dt nd)
                | Option.none =>
                  .error (.valueError "could not convert data to array")
            | Option.none => .error (.keyError "data")
          | Option.some _ => .error (.typeError "dtype must be str")
          | Option.none => .error (.keyError "dtype")
        else if mc.1 == "pandas" then
          if mc.2 == "DataFrame" then
            match kvs.hasKey "data" with
            | true => do
              match ← processField w kvs "data" with
              | Option.some decoded =>
                match pyToJ decoded with
                | Option.some r => .ok (.dataframe r)
                | Option.none =>
                  .error (.valueError "DataFrame constructor not called")
              | Option.none => .error (.keyError "data")
            | false => .error (.keyError "data")
          else if mc.2 == "Series" then
            match kvs.hasKey "data" with
            | true => do
              match ← processField w kvs "data" with
              | Option.some decoded =>
                match pyToJ decoded with
                | Option.some r => .ok (.series r)
                | Option.none =>
                  .error (.valueError "Series constructor not called")
              | Option.none => .error (.keyError "data")
            | false => .error (.keyError "data")
          else do
            let d ← processPlainObj w kvs
            .ok (.dict d)
        else if mc.1 == "bson.objectid" && mc.2 == "ObjectId" then
          match kvs.find "oid" with
          | Option.some (.str s) => .ok (.objectId s)
          | Option.some _ => .error (.typeError "oid must be str")
          | Option.none => .error (.keyError "oid")
        else do
          let d ← processPlainObj w kvs
          .ok (.dict d)
      | Option.some _, Option.some cJ =>
        if jTruthy cJ then .error (.typeError "tag fields must be strings")
        else do
          let d ← processPlainObj w kvs
          .ok (.dict d)
      | _, _ => .error (.keyError "@module")
    else if kvs.hasKey "@module" && kvs.hasKey "@callable" then
      match kvs.find "@module", kvs.find "@callable" with
      | Option.some mJ, Option.some (.str qn) =>
        match kvs.find "@bound" with
        | Option.some .null | Option.none =>
          match mJ with
          | .str m =>
            match lookupMod w m with
            | Option.none =>
              .error (.importError ("No module named " ++ m))
            | Option.some attrs =>
              match walkAttrs (.pyModule attrs) (splitDots qn) with
              | Option.some v => .ok v
              | Option.none => do
                let d ← processPlainObj w kvs
                .ok (.dict d)
          | _ => .error (.typeError "import name must be str")
        | Option.some _ => do
          match ← processField w kvs "@bound" with
          | Option.some owner =>
            match walkAttrs owner ((splitDots qn).drop 1) with
            | Option.some v => .ok v
            | Option.none => do
              let d ← processPlainObj w kvs
              .ok (.dict d)
          | Option.none => .error (.keyError "@bound")
      | Option.some _, Option.some _ =>
        .error (.attributeError "object has no attribute split")
      | _, _ => .error (.keyError "@callable")
    else do
      let d ← processPlainObj w kvs
      .ok (.dict d)
  | .arr xs => do
    let r ← processJListD w xs
    .ok (.list r)
  | .null => .ok .none
  | .bool b => .ok (.bool b)
  | .jint n => .ok (.int n)
  | .jnum q => .ok (.float q)
  | .str s => .ok (.str s)
/-- `process_decoded` over list elements, order preserved. -/
def processJListD (w : DWorld) : JList → Except PyErr PyList
  | .nil => .ok .nil
  | .cons x tl => do
    let x2 ← processDecoded w x
    let tl2 ← processJListD w tl
    .ok (.cons x2 tl2)
/-- Line 609 of the source: the plain-mapping result
`{process_decoded(k): process_decoded(v)}` over all entries (string keys
decode to themselves). -/
def processPlainObj (w : DWorld) : JObj → Except PyErr PyDict
  | .nil => .ok .nil
  | .cons k v tl => do
    let v2 ← processDecoded w v
    let tl2 ← processPlainObj w tl
    .ok (.cons (.str k) v2 tl2)
/-- The non-`@` field extraction plus recursive decode used by the
`from_dict`/pydantic/dataclass reconstruction paths. -/
def processNonAt (w : DWorld) : JObj → Except PyErr PyDict
  | .nil => .ok .nil
  | .cons k v tl =>
    if strStarts k "@" then processNonAt w tl
    else do
      let v2 ← processDecoded w v
      let tl2 ← processNonAt w tl
      .ok (.cons (.str k) v2 tl2)
/-- `process_decoded` applied to the value under one key (first match),
as the source does for `d[\x22data\x22]` and `d[\x22@bound\x22]`. -/
def processField (w : DWorld) : JObj → String → Except PyErr (Option PyValue)
  | .nil, _ => .ok Option.none
  | .cons k v tl, key =>
    if k == key then do
      let v2 ← processDecoded w v
      .ok (some v2)
    else processField w tl key
end

/-! ## Redirect table loader: `_load_redirect` -/

/-- What opening and YAML-parsing `~/.monty.yaml` can yield: no file at
the path (an `OSError` from `open`), content the YAML parser rejects, or
a parsed flat string-to-string mapping. -/
inductive RedirectSrc where
  | missing : RedirectSrc
  | parseFail (e : PyErr) : RedirectSrc
  | parsed (kvs : List (String × String)) : RedirectSrc

/-- Split a fully-qualified path into `(module, class)`:
`".".join(p.split(".")[:-1])` and `p.split(".")[-1]`. -/
def splitPath (p : String) : String × String :=
  let parts := splitDots p
  (joinSep "." parts.dropLast, parts.getLastD "")

/-- Dict assignment on the flat redirect table: overwrite in place or
append, as `redirect_dict[old_module][old_class] = ...`. -/
def rtAssign (t : List ((String × String) × (String × String)))
    (key tgt : String × String) :
    List ((String × String) × (String × String)) :=
  match t with
  | [] => [(key, tgt)]
  | (k, v) :: tl =>
    if k.1 == key.1 && k.2 == key.2 then (k, tgt) :: tl
    else (k, v) :: rtAssign tl key tgt

/-- The table-building loop of `_load_redirect`, in file order. -/
def buildRedirect (acc : List ((String × String) × (String × String))) :
    List (String × String) → List ((String × String) × (String × String))
  | [] => acc
  | (old, new) :: tl =>
    buildRedirect (rtAssign acc (splitPath old) (splitPath new)) tl

/-- `_load_redirect(redirect_file)`: an unreadable file is an empty
table; parse failures propagate; parsed content becomes the
module/class table. -/
def loadRedirect : RedirectSrc →
    Except PyErr (List ((String × String) × (String × String)))
  | .missing => .ok []
  | .parseFail e => .error e
  | .parsed kvs => .ok (buildRedirect [] kvs)

/-! ## Sanitizer: `jsanitize`

`jsanitize` recurses through values it freshly constructs in its strict
branches (`jsanitize(obj.as_dict())`), so the model carries explicit fuel
— one unit per call — standing in for Python's unbounded recursion (the
spec documents that cyclic graphs are not defended against).  All claim
proofs hold for every sufficient fuel. -/

/-- The keyword flags of `jsanitize`. -/
structure SanFlags where
  strict : Bool
  allowBson : Bool
  enumValues : Bool
  recursiveMsonable : Bool
  deriving DecidableEq, Repr

/-- A `PyList` as a Lean list. -/
def pyListToList : PyList → List PyValue
  | .nil => []
  | .cons x tl => x :: pyListToList tl

/-- A Lean list as a `PyList`. -/
def pyListOfList : List PyValue → PyList
  | [] => .nil
  | x :: tl => .cons x (pyListOfList tl)

/-- A `PyDict` as a Lean pair list. -/
def pyDictToPairs : PyDict → List (PyValue × PyValue)
  | .nil => []
  | .cons k v tl => (k, v) :: pyDictToPairs tl

/-- A Lean pair list as a `PyDict`. -/
def pyDictOfPairs : List (PyValue × PyValue) → PyDict
  | [] => .nil
  | (k, v) :: tl => .cons k v (pyDictOfPairs tl)

/-- `o.item()` of a zero-dimensional numpy scalar wrapper. -/
def npItemPy (dt : String) (v : Rat) : PyValue :=
  if strStarts dt "int" || strStarts dt "uint" then .int v.num
  else .float v

mutual
/-- One level of `o.tolist()` as Python values (complex leaves keep their
real component; sanitizing complex arrays is outside every claim). -/
def npDataToPy : NpData → PyValue
  | .leaf re _ => .float re
  | .node xs => .list (npListToPy xs)
/-- Elementwise `tolist` to Python values. -/
def npListToPy : NpList → PyList
  | .nil => .nil
  | .cons x tl => .cons (npDataToPy x) (npListToPy tl)
end

/-- `jsanitize(obj, strict, allow_bson, enum_values, recursive_msonable)`,
branch for branch in source order, with explicit fuel.  Values only the
decoder produces (classes, modules, reconstructed instances) take the
generic tail: lenient stringification or the strict-mode
`AttributeError`. -/
def jsan : Nat → SanFlags → PyValue → Except PyErr PyValue
  | 0, _, _ => .error .recursionError
  | n + 1, fl, v =>
    match v with
    | .obj info bound pyd dcf adict ev =>
      match ev with
      | .some evv =>
        if fl.enumValues then .ok evv
        else if info.hasAsDict then .ok (.dict adict)
        else
          match defaultE (.obj info bound pyd dcf adict ev) with
          | .ok out => .ok (encOutToPy out)
          | .error e => .error e
      | .none =>
        if info.isCallable && !info.isMSONable then
          match serializeCallable info bound with
          | .ok d => .ok (.dict d)
          | .error (.typeError _) =>
            if fl.recursiveMsonable && info.hasAsDict then .ok (.dict adict)
            else if !fl.strict then .ok (.str (pyStr v))
            else if info.isPydantic then
              match defaultE v with
              | .ok out => jsan n fl (encOutToPy out)
              | .error e => .error e
            else if info.hasAsDict then jsan n fl (.dict adict)
            else .error (.attributeError "object has no attribute as_dict")
          | .error e => .error e
        else
          if fl.recursiveMsonable && info.hasAsDict then .ok (.dict adict)
          else if !fl.strict then .ok (.str (pyStr v))
          else if info.isPydantic then
            match defaultE v with
            | .ok out => jsan n fl (encOutToPy out)
            | .error e => .error e
          else if info.hasAsDict then jsan n fl (.dict adict)
          else .error (.attributeError "object has no attribute as_dict")
    | .mson info attrs ev =>
      match ev with
      | .some _ =>
        if fl.enumValues then
          match ev with
          | .some evv => .ok evv
          | .none => .error (.attributeError "value")
        else do
          let r ← recAsDictDict attrs
          let d ← mkAsDict info r attrs ev
          .ok (.dict d)
      | .none =>
        if fl.recursiveMsonable then do
          let r ← recAsDictDict attrs
          let d ← mkAsDict info r attrs ev
          .ok (.dict d)
        else if !fl.strict then .ok (.str (pyStr v))
        else do
          let r ← recAsDictDict attrs
          let d ← mkAsDict info r attrs ev
          jsan n fl (.dict d)
    | .enumOf m c evj =>
      if fl.enumValues then .ok (jToPy evj)
      else
        .ok (.dict (ensureTagsS m c Option.none
          (.cons (.str "value") (jToPy evj) .nil)))
    | .datetime d =>
      if fl.allowBson then .ok (.datetime d) else .ok (.str (dtStr d))
    | .bytes s =>
      if fl.allowBson then .ok (.bytes s)
      else if !fl.strict then .ok (.str (pyStr (.bytes s)))
      else .error (.attributeError "object has no attribute as_dict")
    | .objectId s =>
      if fl.allowBson then .ok (.objectId s)
      else if !fl.strict then .ok (.str s)
      else .error (.attributeError "object has no attribute as_dict")
    | .list xs => do
      let r ← (pyListToList xs).mapM (jsan n fl)
      .ok (.list (pyListOfList r))
    | .tuple xs => do
      let r ← (pyListToList xs).mapM (jsan n fl)
      .ok (.list (pyListOfList r))
    | .npArray _ data =>
      match data with
      | .leaf _ _ => .error (.typeError "iteration over a 0-d array")
      | .node xs => do
        let r ← (pyListToList (npListToPy xs)).mapM (jsan n fl)
        .ok (.list (pyListOfList r))
    | .npScalar dt val => .ok (npItemPy dt val)
    | .dataframe r => .ok (jToPy r)
    | .series r => .ok (jToPy r)
    | .dict kvs => do
      let r ← (pyDictToPairs kvs).mapM (fun p => do
        let v2 ← jsan n fl p.2
        pure (PyValue.str (pyStr p.1), v2))
      .ok (.dict (pyDictOfPairs r))
    | .int n2 => .ok (.int n2)
    | .float q => .ok (.float q)
    | .bool b => .ok (.bool b)
    | .none => .ok .none
    | .path s => .ok (.str s)
    | .str s => .ok (.str s)
    | .uuid s =>
      if !fl.strict then .ok (.str s)
      else .error (.attributeError "object has no attribute as_dict")
    | .tensor dt data =>
      if !fl.strict then .ok (.str (pyStr (.tensor dt data)))
      else .error (.attributeError "object has no attribute as_dict")
    | .pyClass ci _ =>
      .ok (.dict (.cons (.str "@module") (.str ci.module)
        (.cons (.str "@callable") (.str ci.name)
          (.cons (.str "@bound") .none .nil))))
    | .pyModule attrs =>
      if !fl.strict then .ok (.str (pyStr (.pyModule attrs)))
      else .error (.attributeError "object has no attribute as_dict")
    | .constructed md m c fields =>
      if !fl.strict then .ok (.str (pyStr (.constructed md m c fields)))
      else .error (.attributeError "object has no attribute as_dict")

/-! ## Hasher: the `unsafe_hash` pipeline up to the digested bytes

`unsafe_hash` is `sha1(json.dumps(OrderedDict(ordered_keys)).encode())`
where `ordered_keys` is the sorted, tag-stripped flattening of
`jsanitize(self.as_dict())`.  The model computes the exact serialized
text handed to the digest; the `hashlib.sha1` step itself is an external
fixed-length digest of those bytes and is outside the model. -/

/-- Flat-dict assignment `flat_dict[key] = value`: overwrite in place or
append. -/
def upsertS (acc : List (String × PyValue)) (k : String) (v : PyValue) :
    List (String × PyValue) :=
  match acc with
  | [] => [(k, v)]
  | (k2, v2) :: tl =>
    if k2 == k then (k2, v) :: tl else (k2, v2) :: upsertS tl k v

/-- `flat_dict.update(new)`, entry by entry. -/
def updAll (acc new : List (String × PyValue)) : List (String × PyValue) :=
  match new with
  | [] => acc
  | (k, v) :: tl => updAll (upsertS acc k v) tl

mutual
/-- The `flatten` helper of `unsafe_hash`, accumulator style: dict values
flatten with a dot-joined key prefix, list values become numbered path
segments and are flattened again, leaves are assigned.  Keys reaching
`flatten` after `jsanitize` are strings; a non-string key is the
`TypeError` the dot-join would raise. -/
def flattenAux (acc : List (String × PyValue)) :
    PyDict → Except PyErr (List (String × PyValue))
  | .nil => .ok acc
  | .cons (.str k) v tl => do
    let c ← flattenEntry k v
    flattenAux (updAll acc c) tl
  | .cons _ _ _ =>
    .error (.typeError "sequence item 0 expected str instance")
/-- The contribution of one `(key, value)` entry to the flat dict. -/
def flattenEntry (k : String) :
    PyValue → Except PyErr (List (String × PyValue))
  | .dict kvs => do
    let sub ← flattenAux [] kvs
    .ok (sub.map (fun p => (k ++ "." ++ p.1, p.2)))
  | .list xs => flattenListAux [] k 0 xs
  | v => .ok [(k, v)]
/-- Flattening of the numbered list-entry dict
`{f\x22\x7bkey\x7d.\x7bnum\x7d\x22: item}`. -/
def flattenListAux (acc : List (String × PyValue)) (k : String) (i : Nat) :
    PyList → Except PyErr (List (String × PyValue))
  | .nil => .ok acc
  | .cons x tl => do
    let c ← flattenEntry (k ++ "." ++ toString i) x
    flattenListAux (updAll acc c) k (i + 1) tl
end

/-- Lexicographic comparison of code-point lists: how Python compares
`str` values under `sorted`. -/
def charsLt : List Char → List Char → Bool
  | _, [] => false
  | [], _ :: _ => true
  | a :: as_, b :: bs =>
    if a.toNat < b.toNat then true
    else if b.toNat < a.toNat then false
    else charsLt as_ bs

/-- Python string `<`. -/
def strLt (a b : String) : Bool := charsLt a.data b.data

/-- Insert into a key-sorted pair list. -/
def insSorted (x : String × PyValue) :
    List (String × PyValue) → List (String × PyValue)
  | [] => [x]
  | y :: ys => if strLt x.1 y.1 then x :: y :: ys else y :: insSorted x ys

/-- `sorted(items, key=lambda x: x[0])`. -/
def sortByKey : List (String × PyValue) → List (String × PyValue)
  | [] => []
  | x :: xs => insSorted x (sortByKey xs)

/-- JSON string escaping (quote and backslash; the claim inputs contain
no control characters). -/
def escapeChar (c : Char) : String :=
  if c = Char.ofNat 34 then String.mk [Char.ofNat 92, Char.ofNat 34]
  else if c = Char.ofNat 92 then String.mk [Char.ofNat 92, Char.ofNat 92]
  else String.mk [c]

/-- A JSON string literal. -/
def jsonQuote (s : String) : String :=
  String.mk [Char.ofNat 34] ++ joinSep "" (s.data.map escapeChar) ++
    String.mk [Char.ofNat 34]

mutual
/-- Plain `json.dumps` (no Monty handler), with the default separators:
what `unsafe_hash` serializes the ordered flat dict with.  Values the
stdlib encoder rejects are its `TypeError`. -/
def serializePy : PyValue → Except PyErr String
  | .none => .ok "null"
  | .bool true => .ok "true"
  | .bool false => .ok "false"
  | .int n => .ok (toString n)
  | .float q => .ok (ratRepr q)
  | .str s => .ok (jsonQuote s)
  | .list xs => do
    let parts ← serializePyList xs
    .ok ("[" ++ joinSep ", " parts ++ "]")
  | .dict kvs => do
    let parts ← serializePyDict kvs
    .ok ("\x7b" ++ joinSep ", " parts ++ "\x7d")
  | v =>
    .error (.typeError
      ("Object of type " ++ pyTypeName v ++ " is not JSON serializable"))
/-- Serialized list elements. -/
def serializePyList : PyList → Except PyErr (List String)
  | .nil => .ok []
  | .cons x tl => do
    let s ← serializePy x
    let rest ← serializePyList tl
    .ok (s :: rest)
/-- Serialized dict entries (string keys). -/
def serializePyDict : PyDict → Except PyErr (List String)
  | .nil => .ok []
  | .cons (.str k) v tl => do
    let s ← serializePy v
    let rest ← serializePyDict tl
    .ok ((jsonQuote k ++ ": " ++ s) :: rest)
  | .cons _ _ _ => .error (.typeError "keys must be str")
end

/-- `json.dumps(OrderedDict(pairs))` for a string-keyed pair list. -/
def serializePairs (ps : List (String × PyValue)) : Except PyErr String := do
  let parts ← ps.mapM (fun p => do
    let s ← serializePy p.2
    pure (jsonQuote p.1 ++ ": " ++ s))
  .ok ("\x7b" ++ joinSep ", " parts ++ "\x7d")

/-- `self.as_dict()`: the auto-derive dict for `MSONable` objects, the
stored dict for objects exposing a custom `as_dict`, `AttributeError`
otherwise. -/
def asDictOfV : PyValue → Except PyErr PyDict
  | .mson info attrs ev => do
    let r ← recAsDictDict attrs
    mkAsDict info r attrs ev
  | .obj info _ _ _ adict _ =>
    if info.hasAsDict then .ok adict
    else .error (.attributeError "object has no attribute as_dict")
  | _ => .error (.attributeError "object has no attribute as_dict")

/-- The exact text `unsafe_hash` feeds to `sha1`, from the source:
`json.dumps(OrderedDict(sorted-then-tag-filtered flatten of
jsanitize(self.as_dict())))`. -/
def hashInput (fuel : Nat) (v : PyValue) : Except PyErr String := do
  let d ← asDictOfV v
  let s ← jsan fuel ⟨false, false, false, false⟩ (.dict d)
  match s with
  | .dict sd => do
    let flat ← flattenAux [] sd
    let ordered := sortByKey flat
    let kept := ordered.filter (fun p => !containsSub p.1 "@")
    serializePairs kept
  | _ => .error (.attributeError "object has no attribute items")

/-- The fingerprint pipeline as spec section 4.6 words it, with the
enum-as-value flag as a parameter: sanitize the derived form, flatten,
drop entries whose key contains the tag marker, sort by key, serialize
deterministically.  The claim is this with `enumAsValue = true`. -/
def fingerprintSpec (evFlag : Bool) (fuel : Nat) (v : PyValue) :
    Except PyErr String := do
  let d ← asDictOfV v
  let s ← jsan fuel ⟨false, false, evFlag, false⟩ (.dict d)
  match s with
  | .dict sd => do
    let flat ← flattenAux [] sd
    let kept := flat.filter (fun p => !containsSub p.1 "@")
    serializePairs (sortByKey kept)
  | _ => .error (.attributeError "object has no attribute items")

/-! ## Round trip composition -/

/-- The decoder environment of a fresh process with no `~/.monty.yaml`:
an empty redirect table (and no importable user modules, which the
built-in decode paths never consult). -/
def w0 : DWorld := ⟨[], []⟩

/-- `decode(encode(x))` for a value the encoder handles through a
built-in branch: `json.dumps` emits `default(x)` (whose payload is
JSON-native there) and `json.loads` + `process_decoded` reads it back. -/
def rtBuiltin (w : DWorld) (x : PyValue) : Except PyErr PyValue :=
  match defaultE x with
  | .ok (.json j) => processDecoded w j
  | .ok (.pydict _) => .error (.typeError "value not on a builtin branch")
  | .error e => .error e

mutual
/-- Array data representable at a real dtype: every imaginary part `0`. -/
def npRealData : NpData → Bool
  | .leaf _ im => im == 0
  | .node xs => npRealList xs
/-- Real-representability of a level. -/
def npRealList : NpList → Bool
  | .nil => true
  | .cons x tl => npRealData x && npRealList tl
end

mutual
/-- Nesting depth of a Python value (fuel bound for `jsan`). -/
def pyDepth : PyValue → Nat
  | .list xs => pyDepthL xs + 1
  | .tuple xs => pyDepthL xs + 1
  | .dict kvs => pyDepthD kvs + 1
  | _ => 1
/-- Depth of list elements. -/
def pyDepthL : PyList → Nat
  | .nil => 0
  | .cons x tl => max (pyDepth x) (pyDepthL tl)
/-- Depth of dict values. -/
def pyDepthD : PyDict → Nat
  | .nil => 0
  | .cons _ v tl => max (pyDepth v) (pyDepthD tl)
end

/-! ## Theorems -/

instance {ε α : Type} [DecidableEq ε] [DecidableEq α] :
    DecidableEq (Except ε α) := fun x y =>
  match x, y with
  | .ok a, .ok b =>
    if h : a = b then .isTrue (by rw [h])
    else .isFalse (by intro hc; cases hc; exact h rfl)
  | .error a, .error b =>
    if h : a = b then .isTrue (by rw [h])
    else .isFalse (by intro hc; cases hc; exact h rfl)
  | .ok _, .error _ => .isFalse (by intro hc; cases hc)
  | .error _, .ok _ => .isFalse (by intro hc; cases hc)

/-- Digit characters of reduced residues are decimal digits. -/
theorem digitChar_mod_isDigit (k : Nat) :
    (Nat.digitChar (k % 10)).isDigit = true := by
  have h : k % 10 < 10 := Nat.mod_lt _ (by norm_num)
  have hall : ∀ m, m < 10 → (Nat.digitChar m).isDigit = true := by decide
  exact hall _ h

/-- `digitVal` inverts `Nat.digitChar` on reduced residues. -/
theorem digitVal_digitChar_mod (k : Nat) :
    digitVal (Nat.digitChar (k % 10)) = k % 10 := by
  have h : k % 10 < 10 := Nat.mod_lt _ (by norm_num)
  have hall : ∀ m, m < 10 → digitVal (Nat.digitChar m) = m := by decide
  exact hall _ h

/-- The fractional-format parse inverts printing when microseconds are
nonzero. -/
theorem strptimeFrac_dtStr (d : DT) (hv : ValidDT d) (hu : d.usec ≠ 0) :
    strptimeFrac (dtStr d) = some d := by
  obtain ⟨y, mo, dy, h, mi, s, us⟩ := d
  replace hv : 1 ≤ y ∧ y ≤ 9999 ∧ 1 ≤ mo ∧ mo ≤ 12 ∧ 1 ≤ dy ∧ dy ≤ 31 ∧
      h ≤ 23 ∧ mi ≤ 59 ∧ s ≤ 59 ∧ us ≤ 999999 := hv
  obtain ⟨h1, h2, h3, h4, h5, h6, h7, h8, h9, h10⟩ := hv
  replace hu : us ≠ 0 := hu
  simp only [ne_eq] at hu
  simp only [dtStr, dtChars, pad4, pad2, pad6, if_neg hu,
    List.cons_append, List.nil_append, List.append_nil]
  simp only [strptimeFrac, List.all_cons, List.all_nil,
    digitChar_mod_isDigit, Bool.and_self, Bool.and_true, Bool.true_and,
    if_true]
  have hy : val4 (Nat.digitChar (y / 1000 % 10))
      (Nat.digitChar (y / 100 % 10)) (Nat.digitChar (y / 10 % 10))
      (Nat.digitChar (y % 10)) = y := by
    simp only [val4, digitVal_digitChar_mod]; omega
  have hmo : val2 (Nat.digitChar (mo / 10 % 10))
      (Nat.digitChar (mo % 10)) = mo := by
    simp only [val2, digitVal_digitChar_mod]; omega
  have hdy : val2 (Nat.digitChar (dy / 10 % 10))
      (Nat.digitChar (dy % 10)) = dy := by
    simp only [val2, digitVal_digitChar_mod]; omega
  have hh : val2 (Nat.digitChar (h / 10 % 10))
      (Nat.digitChar (h % 10)) = h := by
    simp only [val2, digitVal_digitChar_mod]; omega
  have hmi : val2 (Nat.digitChar (mi / 10 % 10))
      (Nat.digitChar (mi % 10)) = mi := by
    simp only [val2, digitVal_digitChar_mod]; omega
  have hs : val2 (Nat.digitChar (s / 10 % 10))
      (Nat.digitChar (s % 10)) = s := by
    simp only [val2, digitVal_digitChar_mod]; omega
  have hus : val6 (Nat.digitChar (us / 100000 % 10))
      (Nat.digitChar (us / 10000 % 10)) (Nat.digitChar (us / 1000 % 10))
      (Nat.digitChar (us / 100 % 10)) (Nat.digitChar (us / 10 % 10))
      (Nat.digitChar (us % 10)) = us := by
    simp only [val6, digitVal_digitChar_mod]; omega
  rw [hy, hmo, hdy, hh, hmi, hs, hus]
  have hok : dtFieldsOk y mo dy h mi s = true := by
    simp only [dtFieldsOk, Bool.and_eq_true, decide_eq_true_eq]; omega
  rw [hok]
  simp

/-- The fractional-format parse rejects the 19-character no-fraction
print. -/
theorem strptimeFrac_dtStr_none (d : DT) (hu : d.usec = 0) :
    strptimeFrac (dtStr d) = none := by
  obtain ⟨y, mo, dy, h, mi, s, us⟩ := d
  replace hu : us = 0 := hu
  subst hu
  simp only [dtStr, dtChars, pad4, pad2, pad6, if_pos rfl,
    List.cons_append, List.nil_append, List.append_nil]
  rfl

/-- The no-fraction parse inverts printing when microseconds are zero. -/
theorem strptimeNoFrac_dtStr (d : DT) (hv : ValidDT d) (hu : d.usec = 0) :
    strptimeNoFrac (dtStr d) = some d := by
  obtain ⟨y, mo, dy, h, mi, s, us⟩ := d
  replace hu : us = 0 := hu
  subst hu
  replace hv : 1 ≤ y ∧ y ≤ 9999 ∧ 1 ≤ mo ∧ mo ≤ 12 ∧ 1 ≤ dy ∧ dy ≤ 31 ∧
      h ≤ 23 ∧ mi ≤ 59 ∧ s ≤ 59 ∧ (0 : Nat) ≤ 999999 := hv
  obtain ⟨h1, h2, h3, h4, h5, h6, h7, h8, h9, h10⟩ := hv
  simp only [dtStr, dtChars, pad4, pad2, pad6, if_pos rfl,
    List.cons_append, List.nil_append, List.append_nil]
  simp only [strptimeNoFrac, List.all_cons, List.all_nil,
    digitChar_mod_isDigit, Bool.and_self, Bool.and_true, Bool.true_and,
    if_true]
  have hy : val4 (Nat.digitChar (y / 1000 % 10))
      (Nat.digitChar (y / 100 % 10)) (Nat.digitChar (y / 10 % 10))
      (Nat.digitChar (y % 10)) = y := by
    simp only [val4, digitVal_digitChar_mod]; omega
  have hmo : val2 (Nat.digitChar (mo / 10 % 10))
      (Nat.digitChar (mo % 10)) = mo := by
    simp only [val2, digitVal_digitChar_mod]; omega
  have hdy : val2 (Nat.digitChar (dy / 10 % 10))
      (Nat.digitChar (dy % 10)) = dy := by
    simp only [val2, digitVal_digitChar_mod]; omega
  have hh : val2 (Nat.digitChar (h / 10 % 10))
      (Nat.digitChar (h % 10)) = h := by
    simp only [val2, digitVal_digitChar_mod]; omega
  have hmi : val2 (Nat.digitChar (mi / 10 % 10))
      (Nat.digitChar (mi % 10)) = mi := by
    simp only [val2, digitVal_digitChar_mod]; omega
  have hs : val2 (Nat.digitChar (s / 10 % 10))
      (Nat.digitChar (s % 10)) = s := by
    simp only [val2, digitVal_digitChar_mod]; omega
  rw [hy, hmo, hdy, hh, hmi, hs]
  have hok : dtFieldsOk y mo dy h mi s = true := by
    simp only [dtFieldsOk, Bool.and_eq_true, decide_eq_true_eq]; omega
  rw [hok]
  simp

/-- `Except` bind on a success, by unfolding. -/
theorem except_bind_ok {e a b : Type} (x : a) (f : a → Except e b) :
    (Except.ok x >>= f : Except e b) = f x := rfl

/-- `Except` map on a success, by unfolding. -/
theorem except_map_ok {e a b : Type} (x : a) (f : a → b) :
    (Except.map f (Except.ok x) : Except e b) = .ok (f x) := rfl

mutual
/-- A tag-free tree decodes to its plain Python denotation. -/
theorem processDecoded_plain (w : DWorld) :
    (j : JValue) → isTagFree j = true → processDecoded w j = .ok (jToPy j)
  | .null, _ => rfl
  | .bool _, _ => rfl
  | .jint _, _ => rfl
  | .jnum _, _ => rfl
  | .str _, _ => rfl
  | .arr xs, h => by
    have h2 := processJListD_plain w xs (by simpa [isTagFree] using h)
    simp [processDecoded, jToPy, h2, except_bind_ok]
  | .obj kvs, h => by
    simp only [isTagFree, Bool.and_eq_true, Bool.not_eq_eq_eq_not,
      Bool.not_true, Bool.and_eq_false_iff, Bool.or_eq_false_iff] at h
    have h2 := processPlainObj_plain w kvs h.2
    rcases h.1 with hm | ⟨hc, hca⟩
    · simp [processDecoded, hm, h2, jToPy, except_bind_ok]
    · simp [processDecoded, hc, hca, h2, jToPy, except_bind_ok]
/-- Elementwise on arrays. -/
theorem processJListD_plain (w : DWorld) :
    (xs : JList) → isTagFreeList xs = true →
      processJListD w xs = .ok (jToPyList xs)
  | .nil, _ => rfl
  | .cons x tl, h => by
    simp only [isTagFreeList, Bool.and_eq_true] at h
    have h1 := processDecoded_plain w x h.1
    have h2 := processJListD_plain w tl h.2
    simp [processJListD, h1, h2, jToPyList, except_bind_ok]
/-- Elementwise on objects. -/
theorem processPlainObj_plain (w : DWorld) :
    (kvs : JObj) → isTagFreeObj kvs = true →
      processPlainObj w kvs = .ok (jToPyObj kvs)
  | .nil, _ => rfl
  | .cons _ v tl, h => by
    simp only [isTagFreeObj, Bool.and_eq_true] at h
    have h1 := processDecoded_plain w v h.1
    have h2 := processPlainObj_plain w tl h.2
    simp [processPlainObj, h1, h2, jToPyObj, except_bind_ok]
end

mutual
/-- `pyToJ` inverts `jToPy`. -/
theorem pyToJ_jToPy : (j : JValue) → pyToJ (jToPy j) = some j
  | .null => rfl
  | .bool _ => rfl
  | .jint _ => rfl
  | .jnum _ => rfl
  | .str _ => rfl
  | .arr xs => by simp [jToPy, pyToJ, pyToJList_jToPyList xs]
  | .obj kvs => by simp [jToPy, pyToJ, pyToJObj_jToPyObj kvs]
/-- Elementwise on arrays. -/
theorem pyToJList_jToPyList : (xs : JList) → pyToJList (jToPyList xs) = some xs
  | .nil => rfl
  | .cons x tl => by
    simp [jToPyList, pyToJList, pyToJ_jToPy x, pyToJList_jToPyList tl]
/-- Elementwise on objects. -/
theorem pyToJObj_jToPyObj : (kvs : JObj) → pyToJObj (jToPyObj kvs) = some kvs
  | .nil => rfl
  | .cons _ v tl => by
    simp [jToPyObj, pyToJObj, pyToJ_jToPy v, pyToJObj_jToPyObj tl]
end

mutual
/-- `np.array(o.tolist(), dtype)` reads back real-dtype data. -/
theorem npFromJ_toListJ :
    (d : NpData) → npRealData d = true → npFromJ d.toListJ = some d
  | .leaf re im, h => by
    simp only [npRealData, beq_iff_eq] at h
    subst h
    rfl
  | .node xs, h => by
    simp only [npRealData] at h
    simp [NpData.toListJ, npFromJ, npFromJList_toListJ xs h]
/-- Elementwise on a level. -/
theorem npFromJList_toListJ :
    (xs : NpList) → npRealList xs = true →
      npFromJList xs.toListJ = some xs
  | .nil, _ => rfl
  | .cons x tl, h => by
    simp only [npRealList, Bool.and_eq_true] at h
    simp [NpList.toListJ, npFromJList, npFromJ_toListJ x h.1,
      npFromJList_toListJ tl h.2]
end

mutual
/-- Recombining the separately-listed real and imaginary components
restores the complex data. -/
theorem npCombine_re_im : (d : NpData) → npCombine d.realJ d.imagJ = .ok d
  | .leaf _ _ => rfl
  | .node xs => by
    simp [NpData.realJ, NpData.imagJ, npCombine, npCombineList_re_im xs,
      except_map_ok]
/-- Pairwise on a level. -/
theorem npCombineList_re_im :
    (xs : NpList) → npCombineList xs.realJ xs.imagJ = .ok xs
  | .nil => rfl
  | .cons x tl => by
    simp [NpList.realJ, NpList.imagJ, npCombineList, npCombine_re_im x,
      npCombineList_re_im tl, except_bind_ok]
end

/-- Decoding the tagged datetime node is the two-format parse with
`ValueError` fallback. -/
theorem decode_dt_node (s : String) :
    processDecoded w0 (.obj (.cons "@module" (.str "datetime")
        (.cons "@class" (.str "datetime")
          (.cons "string" (.str s) .nil)))) =
      (match strptimeFrac s with
       | some dt => .ok (.datetime dt)
       | none =>
         match strptimeNoFrac s with
         | some dt => .ok (.datetime dt)
         | none =>
           .error (.valueError "time data does not match format")) := rfl

/-- Round trip of a datetime through encode and decode. -/
theorem rt_datetime (d : DT) (hv : ValidDT d) :
    rtBuiltin w0 (.datetime d) = .ok (.datetime d) := by
  have h0 : rtBuiltin w0 (.datetime d) =
      processDecoded w0 (.obj (.cons "@module" (.str "datetime")
        (.cons "@class" (.str "datetime")
          (.cons "string" (.str (dtStr d)) .nil)))) := rfl
  rw [h0, decode_dt_node]
  by_cases hu : d.usec = 0
  · rw [strptimeFrac_dtStr_none d hu, strptimeNoFrac_dtStr d hv hu]
  · rw [strptimeFrac_dtStr d hv hu]

/-- Round trip of a uuid. -/
theorem rt_uuid (s : String) : rtBuiltin w0 (.uuid s) = .ok (.uuid s) := rfl

/-- Round trip of a path. -/
theorem rt_path (s : String) : rtBuiltin w0 (.path s) = .ok (.path s) := rfl

/-- Round trip of an opaque id. -/
theorem rt_objectId (s : String) :
    rtBuiltin w0 (.objectId s) = .ok (.objectId s) := rfl

/-- Decoding the tagged numpy-array node is the dtype-directed data
reconstruction. -/
theorem decode_np_node (dt : String) (data : JValue) :
    processDecoded w0 (.obj (.cons "@module" (.str "numpy")
        (.cons "@class" (.str "array")
          (.cons "dtype" (.str dt) (.cons "data" data .nil))))) =
      (if strStarts dt "complex" then
        match npDecodeComplexData data with
        | .ok nd => .ok (.npArray dt nd)
        | .error e => .error e
      else
        match npFromJ data with
        | some nd => .ok (.npArray dt nd)
        | none =>
          .error (.valueError "could not convert data to array")) := rfl

/-- Round trip of a real-dtype numeric array. -/
theorem rt_npArray_real (dt : String) (data : NpData)
    (h1 : strStarts dt "complex" = false) (h2 : npRealData data = true) :
    rtBuiltin w0 (.npArray dt data) = .ok (.npArray dt data) := by
  have he : defaultE (.npArray dt data) =
      .ok (.json (.obj (.cons "@module" (.str "numpy")
        (.cons "@class" (.str "array")
          (.cons "dtype" (.str dt)
            (.cons "data" data.toListJ .nil)))))) := by
    simp only [defaultE, h1, Bool.false_eq_true, if_false]
  have hd := decode_np_node dt data.toListJ
  rw [h1] at hd
  simp only [Bool.false_eq_true, if_false] at hd
  rw [npFromJ_toListJ data h2] at hd
  simp only [rtBuiltin, he, hd]

/-- Round trip of a complex-dtype numeric array of dimension at least
one. -/
theorem rt_npArray_complex (dt : String) (xs : NpList)
    (h1 : strStarts dt "complex" = true) :
    rtBuiltin w0 (.npArray dt (.node xs)) =
      .ok (.npArray dt (.node xs)) := by
  have he : defaultE (.npArray dt (.node xs)) =
      .ok (.json (.obj (.cons "@module" (.str "numpy")
        (.cons "@class" (.str "array")
          (.cons "dtype" (.str dt)
            (.cons "data"
              (.arr (.cons (.arr xs.realJ) (.cons (.arr xs.imagJ) .nil)))
              .nil)))))) := by
    simp only [defaultE, h1, if_true, NpData.realJ, NpData.imagJ]
  have hd := decode_np_node dt
    (.arr (.cons (.arr xs.realJ) (.cons (.arr xs.imagJ) .nil)))
  rw [h1] at hd
  simp only [if_true, npDecodeComplexData, npCombineList_re_im xs,
    except_map_ok] at hd
  simp only [rtBuiltin, he, hd]

/-- Decoding the tagged DataFrame node recursively decodes the records
payload and rebuilds the frame from it. -/
theorem decode_df_node (dataJ : JValue) (res : PyValue)
    (hres : processDecoded w0 dataJ = .ok res) :
    processDecoded w0 (.obj (.cons "@module" (.str "pandas")
        (.cons "@class" (.str "DataFrame")
          (.cons "data" dataJ .nil)))) =
      (match pyToJ res with
       | some r2 => .ok (.dataframe r2)
       | none =>
         .error (.valueError "DataFrame constructor not called")) := by
  have h0 : processDecoded w0 (.obj (.cons "@module" (.str "pandas")
      (.cons "@class" (.str "DataFrame") (.cons "data" dataJ .nil)))) =
      (processField w0 (.cons "@module" (.str "pandas")
        (.cons "@class" (.str "DataFrame")
          (.cons "data" dataJ .nil))) "data") >>= (fun x =>
        match x with
        | some decoded =>
          match pyToJ decoded with
          | some r2 => Except.ok (PyValue.dataframe r2)
          | none =>
            Except.error (PyErr.valueError "DataFrame constructor not called")
        | none => Except.error (PyErr.keyError "data")) := rfl
  have h1 : processField w0 (.cons "@module" (.str "pandas")
      (.cons "@class" (.str "DataFrame")
        (.cons "data" dataJ .nil)) : JObj) "data" =
      (processDecoded w0 dataJ) >>= (fun v2 => Except.ok (some v2)) := rfl
  rw [h0, h1, hres]
  simp only [except_bind_ok]

/-- Decoding the tagged Series node, likewise. -/
theorem decode_series_node (dataJ : JValue) (res : PyValue)
    (hres : processDecoded w0 dataJ = .ok res) :
    processDecoded w0 (.obj (.cons "@module" (.str "pandas")
        (.cons "@class" (.str "Series")
          (.cons "data" dataJ .nil)))) =
      (match pyToJ res with
       | some r2 => .ok (.series r2)
       | none =>
         .error (.valueError "Series constructor not called")) := by
  have h0 : processDecoded w0 (.obj (.cons "@module" (.str "pandas")
      (.cons "@class" (.str "Series") (.cons "data" dataJ .nil)))) =
      (processField w0 (.cons "@module" (.str "pandas")
        (.cons "@class" (.str "Series")
          (.cons "data" dataJ .nil))) "data") >>= (fun x =>
        match x with
        | some decoded =>
          match pyToJ decoded with
          | some r2 => Except.ok (PyValue.series r2)
          | none =>
            Except.error (PyErr.valueError "Series constructor not called")
        | none => Except.error (PyErr.keyError "data")) := rfl
  have h1 : processField w0 (.cons "@module" (.str "pandas")
      (.cons "@class" (.str "Series")
        (.cons "data" dataJ .nil)) : JObj) "data" =
      (processDecoded w0 dataJ) >>= (fun v2 => Except.ok (some v2)) := rfl
  rw [h0, h1, hres]
  simp only [except_bind_ok]

/-- Round trip of a tabular frame with plain records. -/
theorem rt_dataframe (r : JValue) (h : isTagFree r = true) :
    rtBuiltin w0 (.dataframe r) = .ok (.dataframe r) := by
  have hd := decode_df_node r (jToPy r) (processDecoded_plain ⟨[], []⟩ r h)
  rw [pyToJ_jToPy r] at hd
  simp only [rtBuiltin, defaultE, hd]

/-- Round trip of a tabular column with plain records. -/
theorem rt_series (r : JValue) (h : isTagFree r = true) :
    rtBuiltin w0 (.series r) = .ok (.series r) := by
  have hd := decode_series_node r (jToPy r) (processDecoded_plain ⟨[], []⟩ r h)
  rw [pyToJ_jToPy r] at hd
  simp only [rtBuiltin, defaultE, hd]

/-- C1 (amended): `decode(encode(x))` is value-equal to `x` for the
built-in types — valid timestamps, unique ids, filesystem paths, opaque
ids, numeric arrays of real dtype, complex-dtype numeric arrays of
dimension at least one, and tabular frames/columns with plain records —
subject to the stated float-precision and container normalization.  The
zero-dimensional complex array case is excluded: there decoding raises
(see the counterexample). -/
theorem C1_roundtrip_builtins :
    (∀ d : DT, ValidDT d → rtBuiltin w0 (.datetime d) = .ok (.datetime d)) ∧
    (∀ s : String, rtBuiltin w0 (.uuid s) = .ok (.uuid s)) ∧
    (∀ s : String, rtBuiltin w0 (.path s) = .ok (.path s)) ∧
    (∀ s : String, rtBuiltin w0 (.objectId s) = .ok (.objectId s)) ∧
    (∀ (dt : String) (data : NpData), strStarts dt "complex" = false →
      npRealData data = true →
      rtBuiltin w0 (.npArray dt data) = .ok (.npArray dt data)) ∧
    (∀ (dt : String) (xs : NpList), strStarts dt "complex" = true →
      rtBuiltin w0 (.npArray dt (.node xs)) =
        .ok (.npArray dt (.node xs))) ∧
    (∀ r : JValue, isTagFree r = true →
      rtBuiltin w0 (.dataframe r) = .ok (.dataframe r)) ∧
    (∀ r : JValue, isTagFree r = true →
      rtBuiltin w0 (.series r) = .ok (.series r)) :=
  ⟨rt_datetime, rt_uuid, rt_path, rt_objectId, rt_npArray_real,
   rt_npArray_complex, rt_dataframe, rt_series⟩

/-- C1 witness: the round trip evaluated at concrete members of each
hypothesis-bearing family (the spec's own scenario datetime, a complex
vector, a frame of records). -/
theorem C1_roundtrip_builtins_witness :
    rtBuiltin w0 (.datetime ⟨2024, 1, 2, 3, 4, 5, 678900⟩) =
      .ok (.datetime ⟨2024, 1, 2, 3, 4, 5, 678900⟩) ∧
    rtBuiltin w0 (.npArray "float64"
        (.node (.cons (.leaf (3 / 2) 0) (.cons (.leaf (5 / 2) 0) .nil)))) =
      .ok (.npArray "float64"
        (.node (.cons (.leaf (3 / 2) 0) (.cons (.leaf (5 / 2) 0) .nil)))) ∧
    rtBuiltin w0 (.npArray "complex128"
        (.node (.cons (.leaf 1 2) (.cons (.leaf 3 4) .nil)))) =
      .ok (.npArray "complex128"
        (.node (.cons (.leaf 1 2) (.cons (.leaf 3 4) .nil)))) ∧
    rtBuiltin w0 (.dataframe (.obj (.cons "a" (.jint 1) .nil))) =
      .ok (.dataframe (.obj (.cons "a" (.jint 1) .nil))) :=
  ⟨C1_roundtrip_builtins.1 _ (by decide),
   C1_roundtrip_builtins.2.2.2.2.1 "float64" _ (by decide) (by decide),
   C1_roundtrip_builtins.2.2.2.2.2.1 "complex128" _ (by decide),
   C1_roundtrip_builtins.2.2.2.2.2.2.1 _ (by decide)⟩

/-- C1 counterexample: a zero-dimensional complex array does not round
trip — the decoder's `zip(*data)` recombination raises `TypeError` on
the scalar real/imaginary payload, so `decode(encode(x))` is an
exception rather than a value equal to `x`. -/
theorem C1_zero_dim_complex_counterexample :
    rtBuiltin w0 (.npArray "complex128" (.leaf 1 2)) =
      .error (.typeError "zip argument is not iterable") := rfl

/-- C2: the encoder dispatch agrees branch for branch with the
fixed-priority order of spec section 4.1 (first match wins), and an
object matching no branch is the hard not-serializable `TypeError`. -/
theorem C2_dispatch_order :
    (∀ v : PyValue, defaultE v = specDefault v) ∧
    (∀ (info : ObjInfo) (bound : OptPy) (pyd dcf adict : PyDict),
      info.isCallable = false → info.isPydantic = false →
      info.isDataclass = false → info.hasAsDict = false →
      defaultE (.obj info bound pyd dcf adict .none) =
        .error (.typeError
          ("Object of type " ++ info.cls ++ " is not JSON serializable"))) := by
  constructor
  · intro v
    cases v <;> rfl
  · intro info bound pyd dcf adict h1 h2 h3 h4
    simp [defaultE, h1, h2, h3, h4]

/-- C2 witness: the no-branch failure at a concrete flagless object. -/
theorem C2_dispatch_order_witness :
    defaultE (.obj ⟨"m", "Zq9", "Zq9", Option.none, false, false, false,
        false, false, false⟩ .none .nil .nil .nil .none) =
      .error (.typeError "Object of type Zq9 is not JSON serializable") :=
  C2_dispatch_order.2 _ .none .nil .nil .nil rfl rfl rfl rfl

/-- C3: the redirect lookup on the (module, class) pair is applied to a
tagged node before any reconstruction and exactly once.  Part one: when
the table maps (m, c) to the built-in datetime shape, the node is decoded
through the datetime path.  Part two: when the table maps (m, c) to
(m2, c2) and m2.c2 resolves to a `from_dict` class, the node is
reconstructed as an m2.c2 instance from its recursively decoded non-tag
fields — whatever else the table contains for (m2, c2), since the lookup
is not reapplied. -/
theorem C3_redirect_before_reconstruction :
    (∀ (w : DWorld) (m c s : String),
      lookupRedirect w.redirect m c = some ("datetime", "datetime") →
      processDecoded w (.obj (.cons "@module" (.str m)
          (.cons "@class" (.str c) (.cons "string" (.str s) .nil)))) =
        (match strptimeFrac s with
         | some dt => .ok (.datetime dt)
         | none =>
           match strptimeNoFrac s with
           | some dt => .ok (.datetime dt)
           | none =>
             .error (.valueError "time data does not match format"))) ∧
    (∀ (w : DWorld) (m c m2 c2 : String) (rest : JObj) (ci : ClassInfo)
        (cattrs attrs : PyDict),
      lookupRedirect w.redirect m c = some (m2, c2) →
      (m2 == "") = false → (c2 == "") = false →
      excludedMod m2 = false →
      (m2 == "datetime" && c2 == "datetime") = false →
      (m2 == "uuid" && c2 == "UUID") = false →
      (m2 == "pathlib" && c2 == "Path") = false →
      lookupMod w m2 = some attrs →
      attrs.findStr c2 = some (.pyClass ci cattrs) →
      ci.hasFromDict = true →
      processDecoded w (.obj (.cons "@module" (.str m)
          (.cons "@class" (.str c) rest))) =
        (processNonAt w rest) >>= (fun fields =>
          .ok (.constructed .viaFromDict ci.module ci.name fields))) := by
  constructor
  · intro w m c s hlk
    simp [processDecoded, hlk, JObj.hasKey, JObj.find, excludedMod]
  · intro w m c m2 c2 rest ci cattrs attrs hlk hm2 hc2 hex hdt huu hpa
      hmod hcls hfd
    simp [processDecoded, hlk, hm2, hc2, hex, hdt, huu, hpa, hmod, hcls,
      hfd, JObj.hasKey, JObj.find, processNonAt, strStarts, listPrefix]
    intro h
    simp [h] at hm2

/-- C3 witness: a table entry redirecting into the built-in datetime
shape decodes through the datetime path; a chained table
{(m1,A)→(m2,B), (m2,B)→(datetime,datetime)} still reconstructs an m2.B
instance, showing the lookup is applied exactly once. -/
theorem C3_redirect_before_reconstruction_witness :
    processDecoded ⟨[(("mOld", "DT1"), ("datetime", "datetime"))], []⟩
        (.obj (.cons "@module" (.str "mOld") (.cons "@class" (.str "DT1")
          (.cons "string" (.str "2024-01-02 03:04:05") .nil)))) =
      .ok (.datetime ⟨2024, 1, 2, 3, 4, 5, 0⟩) ∧
    processDecoded
        ⟨[(("m1", "A"), ("m2", "B")),
          (("m2", "B"), ("datetime", "datetime"))],
         [("m2", .cons (.str "B")
            (.pyClass ⟨"m2", "B", true, false, false, false, true⟩ .nil)
            .nil)]⟩
        (.obj (.cons "@module" (.str "m1") (.cons "@class" (.str "A")
          (.cons "x" (.jint 7) .nil)))) =
      .ok (.constructed .viaFromDict "m2" "B"
        (.cons (.str "x") (.int 7) .nil)) := by
  constructor
  · rw [C3_redirect_before_reconstruction.1
      ⟨[(("mOld", "DT1"), ("datetime", "datetime"))], []⟩ "mOld" "DT1"
      "2024-01-02 03:04:05" rfl]
    rfl
  · rw [C3_redirect_before_reconstruction.2
      ⟨[(("m1", "A"), ("m2", "B")),
        (("m2", "B"), ("datetime", "datetime"))],
       [("m2", .cons (.str "B")
          (.pyClass ⟨"m2", "B", true, false, false, false, true⟩ .nil)
          .nil)]⟩ "m1" "A" "m2" "B"
      (.cons "x" (.jint 7) .nil) ⟨"m2", "B", true, false, false, false,
        true⟩ .nil
      (.cons (.str "B")
        (.pyClass ⟨"m2", "B", true, false, false, false, true⟩ .nil)
        .nil) rfl rfl rfl rfl rfl rfl rfl rfl rfl rfl]
    rfl

/-- C6 (amended): a tagged node whose redirected module resolves but
whose class is absent from it — or resolves to a class offering none of
the recognized reconstruction paths — is returned as a plain mapping with
entries recursively resolved; an unresolvable module, by contrast,
propagates the import failure instead of falling back. -/
theorem C6_unresolved_plain_mapping :
    (∀ (w : DWorld) (m c : String) (rest : JObj) (attrs : PyDict),
      lookupRedirect w.redirect m c = none →
      (m == "") = false → (c == "") = false →
      excludedMod m = false →
      (m == "datetime" && c == "datetime") = false →
      (m == "uuid" && c == "UUID") = false →
      (m == "pathlib" && c == "Path") = false →
      lookupMod w m = some attrs →
      attrs.findStr c = none →
      processDecoded w (.obj (.cons "@module" (.str m)
          (.cons "@class" (.str c) rest))) =
        (processPlainObj w (.cons "@module" (.str m)
          (.cons "@class" (.str c) rest))) >>= (fun d =>
          .ok (.dict d))) ∧
    (∀ (w : DWorld) (m c : String) (rest : JObj) (attrs cattrs : PyDict)
        (ci : ClassInfo),
      lookupRedirect w.redirect m c = none →
      (m == "") = false → (c == "") = false →
      excludedMod m = false →
      (m == "datetime" && c == "datetime") = false →
      (m == "uuid" && c == "UUID") = false →
      (m == "pathlib" && c == "Path") = false →
      lookupMod w m = some attrs →
      attrs.findStr c = some (.pyClass ci cattrs) →
      ci.hasFromDict = false → ci.isEnum = false → ci.isPydantic = false →
      (!ci.isMSONable && ci.isDataclass) = false →
      processDecoded w (.obj (.cons "@module" (.str m)
          (.cons "@class" (.str c) rest))) =
        (processPlainObj w (.cons "@module" (.str m)
          (.cons "@class" (.str c) rest))) >>= (fun d =>
          .ok (.dict d))) ∧
    (∀ (w : DWorld) (m c : String) (rest : JObj),
      lookupRedirect w.redirect m c = none →
      (m == "") = false → (c == "") = false →
      excludedMod m = false →
      (m == "datetime" && c == "datetime") = false →
      (m == "uuid" && c == "UUID") = false →
      (m == "pathlib" && c == "Path") = false →
      lookupMod w m = none →
      processDecoded w (.obj (.cons "@module" (.str m)
          (.cons "@class" (.str c) rest))) =
        .error (.importError ("No module named " ++ m))) := by
  refine ⟨?_, ?_, ?_⟩
  · intro w m c rest attrs hlk hm hc hex hdt huu hpa hmod hcls
    simp [processDecoded, hlk, hm, hc, hex, hdt, huu, hpa, hmod, hcls,
      JObj.hasKey, JObj.find]
    intro h
    simp [h] at hm
  · intro w m c rest attrs cattrs ci hlk hm hc hex hdt huu hpa hmod hcls
      h1 h2 h3 h4
    simp [processDecoded, hlk, hm, hc, hex, hdt, huu, hpa, hmod, hcls,
      h1, h2, h3, h4, JObj.hasKey, JObj.find]
    intro h
    simp [h] at hm
  · intro w m c rest hlk hm hc hex hdt huu hpa hmod
    simp [processDecoded, hlk, hm, hc, hex, hdt, huu, hpa, hmod,
      JObj.hasKey, JObj.find]
    intro h
    simp [h] at hm

/-- C6 witness: a resolvable module without the class yields the plain
mapping with decoded entries. -/
theorem C6_unresolved_plain_mapping_witness :
    processDecoded ⟨[], [("amod", PyDict.nil)]⟩
        (.obj (.cons "@module" (.str "amod") (.cons "@class" (.str "Gone")
          (.cons "a" (.jint 1) .nil)))) =
      .ok (.dict (.cons (.str "@module") (.str "amod")
        (.cons (.str "@class") (.str "Gone")
          (.cons (.str "a") (.int 1) .nil)))) := by
  rw [C6_unresolved_plain_mapping.1 ⟨[], [("amod", PyDict.nil)]⟩ "amod"
    "Gone" (.cons "a" (.jint 1) .nil) PyDict.nil rfl rfl rfl rfl rfl rfl
    rfl rfl rfl]
  rfl

/-- C6 counterexample: a tagged node naming a module that cannot be
imported makes decoding raise the import failure — not return the node
as a plain mapping, as the claim as stated would require. -/
theorem C6_unresolved_counterexample :
    processDecoded ⟨[], []⟩ (.obj (.cons "@module" (.str "nosuchmod")
        (.cons "@class" (.str "X") (.cons "a" (.jint 1) .nil)))) =
      .error (.importError "No module named nosuchmod") := rfl

/-- C10: decoding a callable-reference node — `@module` and `@callable`
but no `@class`, unbound — never consults the redirect table: the result
with any table equals the result with the empty table, the module and
qualified name being resolved exactly as written. -/
theorem C10_callable_ignores_redirect
    (R : List ((String × String) × (String × String)))
    (mods : List (String × PyDict)) (m qn : String) :
    processDecoded ⟨R, mods⟩ (.obj (.cons "@module" (.str m)
        (.cons "@callable" (.str qn) (.cons "@bound" .null .nil)))) =
      processDecoded ⟨[], mods⟩ (.obj (.cons "@module" (.str m)
        (.cons "@callable" (.str qn) (.cons "@bound" .null .nil)))) := by
  have h : ∀ (w : DWorld),
      processDecoded w (.obj (.cons "@module" (.str m)
        (.cons "@callable" (.str qn) (.cons "@bound" .null .nil)))) =
      (match lookupMod w m with
       | Option.none => .error (.importError ("No module named " ++ m))
       | Option.some attrs =>
         match walkAttrs (.pyModule attrs) (splitDots qn) with
         | Option.some v => .ok v
         | Option.none =>
           .ok (.dict (.cons (.str "@module") (.str m)
             (.cons (.str "@callable") (.str qn)
               (.cons (.str "@bound") .none .nil))))) := fun w => rfl
  rw [h ⟨R, mods⟩, h ⟨[], mods⟩]
  rfl

/-- Assignment resolves lookups: the assigned key maps to the new value,
other keys are untouched. -/
theorem findStr_assign : ∀ (d : PyDict) (k : String) (v : PyValue)
    (k2 : String), (d.assign k v).findStr k2 =
      if k == k2 then some v else d.findStr k2
  | .nil, k, v, k2 => by
    simp only [PyDict.assign, PyDict.findStr]
  | .cons (.str ks) w tl, k, v, k2 => by
    by_cases hks : ks = k
    · subst hks
      simp only [PyDict.assign, beq_self_eq_true, if_true, PyDict.findStr]
      by_cases h2 : ks = k2
      · subst h2; simp
      · have hb2 : (ks == k2) = false := by simp [h2]
        simp [hb2]
    · have hb : (ks == k) = false := by simp [hks]
      simp only [PyDict.assign, hb, Bool.false_eq_true, if_false,
        PyDict.findStr]
      by_cases h2 : ks = k2
      · subst h2
        have hb2 : (k == ks) = false := by
          simp only [beq_eq_false_iff_ne, Ne]
          exact fun h => hks h.symm
        simp [hb2]
      · have hb2 : (ks == k2) = false := by simp [h2]
        simp [hb2, findStr_assign tl k v k2]
  | .cons .none w tl, k, v, k2 => by
    simp [PyDict.assign, PyDict.findStr, findStr_assign tl k v k2]
  | .cons (.bool b) w tl, k, v, k2 => by
    simp [PyDict.assign, PyDict.findStr, findStr_assign tl k v k2]
  | .cons (.int n) w tl, k, v, k2 => by
    simp [PyDict.assign, PyDict.findStr, findStr_assign tl k v k2]
  | .cons (.float q) w tl, k, v, k2 => by
    simp [PyDict.assign, PyDict.findStr, findStr_assign tl k v k2]
  | .cons (.bytes s) w tl, k, v, k2 => by
    simp [PyDict.assign, PyDict.findStr, findStr_assign tl k v k2]
  | .cons (.list xs) w tl, k, v, k2 => by
    simp [PyDict.assign, PyDict.findStr, findStr_assign tl k v k2]
  | .cons (.tuple xs) w tl, k, v, k2 => by
    simp [PyDict.assign, PyDict.findStr, findStr_assign tl k v k2]
  | .cons (.dict kvs) w tl, k, v, k2 => by
    simp [PyDict.assign, PyDict.findStr, findStr_assign tl k v k2]
  | .cons (.datetime dt) w tl, k, v, k2 => by
    simp [PyDict.assign, PyDict.findStr, findStr_assign tl k v k2]
  | .cons (.uuid s) w tl, k, v, k2 => by
    simp [PyDict.assign, PyDict.findStr, findStr_assign tl k v k2]
  | .cons (.path s) w tl, k, v, k2 => by
    simp [PyDict.assign, PyDict.findStr, findStr_assign tl k v k2]
  | .cons (.objectId s) w tl, k, v, k2 => by
    simp [PyDict.assign, PyDict.findStr, findStr_assign tl k v k2]
  | .cons (.npArray dt da) w tl, k, v, k2 => by
    simp [PyDict.assign, PyDict.findStr, findStr_assign tl k v k2]
  | .cons (.npScalar dt va) w tl, k, v, k2 => by
    simp [PyDict.assign, PyDict.findStr, findStr_assign tl k v k2]
  | .cons (.tensor dt da) w tl, k, v, k2 => by
    simp [PyDict.assign, PyDict.findStr, findStr_assign tl k v k2]
  | .cons (.dataframe r) w tl, k, v, k2 => by
    simp [PyDict.assign, PyDict.findStr, findStr_assign tl k v k2]
  | .cons (.series r) w tl, k, v, k2 => by
    simp [PyDict.assign, PyDict.findStr, findStr_assign tl k v k2]
  | .cons (.obj i b p dc ad e) w tl, k, v, k2 => by
    simp [PyDict.assign, PyDict.findStr, findStr_assign tl k v k2]
  | .cons (.mson i a e) w tl, k, v, k2 => by
    simp [PyDict.assign, PyDict.findStr, findStr_assign tl k v k2]
  | .cons (.pyClass ci a) w tl, k, v, k2 => by
    simp [PyDict.assign, PyDict.findStr, findStr_assign tl k v k2]
  | .cons (.pyModule a) w tl, k, v, k2 => by
    simp [PyDict.assign, PyDict.findStr, findStr_assign tl k v k2]
  | .cons (.constructed md mo cl f) w tl, k, v, k2 => by
    simp [PyDict.assign, PyDict.findStr, findStr_assign tl k v k2]
  | .cons (.enumOf mo cl j) w tl, k, v, k2 => by
    simp [PyDict.assign, PyDict.findStr, findStr_assign tl k v k2]

/-- `Except` bind on a failure, by unfolding. -/
theorem except_bind_err {e a b : Type} (x : e) (f : a → Except e b) :
    (Except.error x >>= f : Except e b) = .error x := rfl

/-- Assignment preserves key membership. -/
theorem hasStr_assign (d : PyDict) (k : String) (v : PyValue) (k2 : String)
    (h : d.hasStr k2 = true) : (d.assign k v).hasStr k2 = true := by
  simp only [PyDict.hasStr, findStr_assign]
  by_cases hk : (k == k2) = true
  · simp [hk]
  · simp only [hk, Bool.false_eq_true, if_false]
    exact h

/-- Assignment establishes membership of the assigned key. -/
theorem hasStr_assign_self (d : PyDict) (k : String) (v : PyValue) :
    (d.assign k v).hasStr k = true := by
  simp [PyDict.hasStr, findStr_assign]

/-- A successful `update` preserves key membership. -/
theorem hasStr_updateWith : ∀ (nw d d2 : PyDict) (k2 : String),
    d.updateWith nw = .ok d2 → d.hasStr k2 = true → d2.hasStr k2 = true
  | .nil, d, d2, k2, h, hh => by
    simp only [PyDict.updateWith] at h
    cases h
    exact hh
  | .cons key v tl, d, d2, k2, h, hh => by
    cases key <;> simp only [PyDict.updateWith] at h <;>
      try exact absurd h (by simp)
    exact hasStr_updateWith tl _ d2 k2 h (hasStr_assign d _ v k2 hh)

/-- A constructor parameter missing in both plain and underscored form
makes the `as_dict` loop fail with the fixed message, wherever it sits in
the parameter list. -/
theorem mkAsDictLoop_missing : ∀ (names : List String) (rA d : PyDict)
    (c : String), c ∈ names → c ≠ "self" → rA.findStr c = none →
    rA.findStr ("_" ++ c) = none →
    mkAsDictLoop rA names d = .error (.notImplementedError msonFixedMsg)
  | [], _, _, _, hmem, _, _, _ => absurd hmem (List.not_mem_nil _)
  | c2 :: rest, rA, d, c, hmem, hself, h1, h2 => by
    simp only [mkAsDictLoop]
    by_cases hc2 : (c2 == "self") = true
    · rw [if_pos hc2]
      have hmem2 : c ∈ rest := by
        rcases List.mem_cons.mp hmem with h | h
        · exact absurd (h.trans (by simpa using hc2)) hself
        · exact h
      exact mkAsDictLoop_missing rest rA d c hmem2 hself h1 h2
    · rw [if_neg (by simpa using hc2)]
      cases hf : rA.findStr c2 with
      | some a =>
        have hmem2 : c ∈ rest := by
          rcases List.mem_cons.mp hmem with h | h
          · subst h; rw [h1] at hf; cases hf
          · exact h
        exact mkAsDictLoop_missing rest rA _ c hmem2 hself h1 h2
      | none =>
        cases hf2 : rA.findStr ("_" ++ c2) with
        | some a =>
          have hmem2 : c ∈ rest := by
            rcases List.mem_cons.mp hmem with h | h
            · subst h; rw [h2] at hf2; cases hf2
            · exact h
          exact mkAsDictLoop_missing rest rA _ c hmem2 hself h1 h2
        | none => rfl

/-- A successful `as_dict` loop keeps every existing key and records
every non-receiver parameter it visited. -/
theorem mkAsDictLoop_keeps : ∀ (names : List String) (rA d d2 : PyDict),
    mkAsDictLoop rA names d = .ok d2 →
    (∀ k2, d.hasStr k2 = true → d2.hasStr k2 = true) ∧
    (∀ c ∈ names, c ≠ "self" → d2.hasStr c = true)
  | [], rA, d, d2, h => by
    simp only [mkAsDictLoop] at h
    cases h
    exact ⟨fun _ hh => hh, fun c hc _ => absurd hc (List.not_mem_nil _)⟩
  | c2 :: rest, rA, d, d2, h => by
    simp only [mkAsDictLoop] at h
    by_cases hc2 : (c2 == "self") = true
    · rw [if_pos hc2] at h
      obtain ⟨hk, hm⟩ := mkAsDictLoop_keeps rest rA d d2 h
      refine ⟨hk, fun c hc hs => ?_⟩
      rcases List.mem_cons.mp hc with hcc | hcc
      · exact absurd (hcc.trans (by simpa using hc2)) hs
      · exact hm c hcc hs
    · rw [if_neg (by simpa using hc2)] at h
      cases hf : rA.findStr c2 with
      | some a =>
        rw [hf] at h
        obtain ⟨hk, hm⟩ := mkAsDictLoop_keeps rest rA _ d2 h
        refine ⟨fun k2 hh => hk k2 (hasStr_assign d c2 a k2 hh),
          fun c hc hs => ?_⟩
        rcases List.mem_cons.mp hc with hcc | hcc
        · subst hcc
          exact hk c (hasStr_assign_self d c a)
        · exact hm c hcc hs
      | none =>
        rw [hf] at h
        cases hf2 : rA.findStr ("_" ++ c2) with
        | some a =>
          rw [hf2] at h
          obtain ⟨hk, hm⟩ := mkAsDictLoop_keeps rest rA _ d2 h
          refine ⟨fun k2 hh => hk k2 (hasStr_assign d c2 a k2 hh),
            fun c hc hs => ?_⟩
          rcases List.mem_cons.mp hc with hcc | hcc
          · subst hcc
            exact hk c (hasStr_assign_self d c a)
          · exact hm c hcc hs
        | none =>
          rw [hf2] at h
          cases h

/-- The variadic-positional splice preserves key membership. -/
theorem varargsStep_keeps (d2 : PyDict) (vo : Option String)
    (attrs : PyDict) (c : String) (h : d2.hasStr c = true) :
    (varargsStep vo attrs d2).hasStr c = true := by
  cases vo with
  | none => exact h
  | some vn =>
    simp only [varargsStep]
    cases hvf : attrs.findStr vn with
    | none => exact h
    | some a =>
      cases a
      case none => exact h
      all_goals exact hasStr_assign d2 vn _ c h

/-- A successful kwargs splice preserves key membership. -/
theorem kwargsStep_keeps (attrs : PyDict) (key : String) (d d2 : PyDict)
    (c : String) (h : kwargsStep attrs key d = .ok d2)
    (hc : d.hasStr c = true) : d2.hasStr c = true := by
  unfold kwargsStep at h
  cases hf : attrs.findStr key with
  | none => rw [hf] at h; cases h; exact hc
  | some val =>
    rw [hf] at h
    cases val <;> try (cases h)
    case dict kw => exact hasStr_updateWith kw d d2 c h hc

/-- The enumeration step preserves key membership. -/
theorem enumStep_keeps (ev : OptPy) (d : PyDict) (c : String)
    (h : d.hasStr c = true) : (enumStep ev d).hasStr c = true := by
  unfold enumStep
  cases ev with
  | none => exact h
  | some v => exact hasStr_assign d "value" v c h

/-- C4 (amended): auto-derivation is a hard failure when a constructor
parameter is missing in both plain and underscore-prefixed form — a
`NotImplementedError` carrying the source's fixed explanatory message,
which names neither the object type nor the missing attribute — and a
successful derivation never silently omits a field: every non-receiver
constructor parameter appears in the derived dict. -/
theorem C4_derivation_failure :
    (∀ (info : MsonInfo) (rA attrs : PyDict) (ev : OptPy) (c : String),
      c ∈ info.initArgs ++ info.kwonly → c ≠ "self" →
      rA.findStr c = none → rA.findStr ("_" ++ c) = none →
      mkAsDict info rA attrs ev =
        .error (.notImplementedError msonFixedMsg)) ∧
    (∀ (info : MsonInfo) (rA attrs : PyDict) (ev : OptPy) (d : PyDict),
      mkAsDict info rA attrs ev = .ok d →
      ∀ c ∈ info.initArgs ++ info.kwonly, c ≠ "self" →
        d.hasStr c = true) := by
  constructor
  · intro info rA attrs ev c hmem hself h1 h2
    simp only [mkAsDict]
    rw [mkAsDictLoop_missing (info.initArgs ++ info.kwonly) rA _ c hmem
      hself h1 h2]
    rfl
  · intro info rA attrs ev d h c hmem hself
    simp only [mkAsDict] at h
    cases hl : mkAsDictLoop rA (info.initArgs ++ info.kwonly)
        (.cons (.str "@module") (.str info.module)
          (.cons (.str "@class") (.str info.cls)
            (.cons (.str "@version") (optVal info.version) .nil))) with
    | error e => rw [hl, except_bind_err] at h; cases h
    | ok d1 =>
      rw [hl, except_bind_ok] at h
      have hc1 : d1.hasStr c = true :=
        (mkAsDictLoop_keeps _ rA _ d1 hl).2 c hmem hself
      cases hk : kwargsStep attrs "kwargs" d1 with
      | error e => rw [hk, except_bind_err] at h; cases h
      | ok d2 =>
        rw [hk, except_bind_ok] at h
        have hc2 := kwargsStep_keeps attrs "kwargs" d1 d2 c hk hc1
        have hc3 := varargsStep_keeps d2 info.varargs attrs c hc2
        cases hk2 : kwargsStep attrs "_kwargs"
            (varargsStep info.varargs attrs d2) with
        | error e => rw [hk2, except_bind_err] at h; cases h
        | ok d4 =>
          rw [hk2, except_bind_ok] at h
          cases h
          exact enumStep_keeps ev d4 c
            (kwargsStep_keeps attrs "_kwargs" _ d4 c hk2 hc3)

/-- C4 witness: a missing parameter fails with the fixed message; a
complete derivation records the parameter. -/
theorem C4_derivation_failure_witness :
    mkAsDict ⟨"m", "T", Option.none, ["self", "a"], [], Option.none⟩
        .nil .nil .none =
      .error (.notImplementedError msonFixedMsg) ∧
    PyDict.hasStr (.cons (.str "@module") (.str "m")
      (.cons (.str "@class") (.str "T")
        (.cons (.str "@version") .none
          (.cons (.str "a") (.int 1) .nil)))) "a" = true :=
  ⟨C4_derivation_failure.1 ⟨"m", "T", Option.none, ["self", "a"], [],
      Option.none⟩ .nil .nil .none "a" (by decide) (by decide) rfl rfl,
   C4_derivation_failure.2 ⟨"m", "T", Option.none, ["self", "a"], [],
      Option.none⟩ (.cons (.str "a") (.int 1) .nil)
      (.cons (.str "a") (.int 1) .nil) .none
      (.cons (.str "@module") (.str "m")
        (.cons (.str "@class") (.str "T")
          (.cons (.str "@version") .none
            (.cons (.str "a") (.int 1) .nil)))) rfl "a" (by decide)
      (by decide)⟩

set_option maxRecDepth 4000 in
/-- C4 counterexample: the derivation failure message is the fixed
source text — it contains neither the object type name nor the missing
attribute name, contrary to the claim as stated. -/
theorem C4_error_names_counterexample :
    asDictOfV (.mson ⟨"mymod", "Zq8Class", Option.none, ["self", "zq7"],
        [], Option.none⟩ .nil .none) =
      .error (.notImplementedError msonFixedMsg) ∧
    containsSub msonFixedMsg "Zq8Class" = false ∧
    containsSub msonFixedMsg "zq7" = false := ⟨rfl, rfl, rfl⟩

/-- An empty second list is never greater. -/
theorem charsLt_nil_right : ∀ a : List Char, charsLt a [] = false
  | [] => rfl
  | _ :: _ => rfl

/-- Lexicographic comparison is asymmetric. -/
theorem charsLt_asymm :
    ∀ a b : List Char, charsLt a b = true → charsLt b a = false
  | a, [], h => by rw [charsLt_nil_right] at h; exact absurd h (by simp)
  | [], _ :: _, _ => charsLt_nil_right _
  | a :: as_, b :: bs, h => by
    simp only [charsLt] at h ⊢
    by_cases h1 : a.toNat < b.toNat
    · rw [if_neg (by omega), if_pos h1]
    · rw [if_neg h1] at h
      by_cases h2 : b.toNat < a.toNat
      · rw [if_pos h2] at h
        exact absurd h (by simp)
      · rw [if_neg h2] at h
        rw [if_neg h2, if_neg h1]
        exact charsLt_asymm as_ bs h

/-- Lexicographic comparison is transitive. -/
theorem charsLt_trans :
    ∀ a b c : List Char, charsLt a b = true → charsLt b c = true →
      charsLt a c = true
  | a, [], c, h1, _ => by
    rw [charsLt_nil_right] at h1; exact absurd h1 (by simp)
  | a, _ :: _, [], _, h2 => by
    rw [charsLt_nil_right] at h2; exact absurd h2 (by simp)
  | [], _ :: _, _ :: _, _, _ => rfl
  | a :: as_, b :: bs, c :: cs, h1, h2 => by
    simp only [charsLt] at h1 h2 ⊢
    by_cases hab : a.toNat < b.toNat
    · by_cases hbc : b.toNat < c.toNat
      · rw [if_pos (by omega)]
      · rw [if_neg hbc] at h2
        by_cases hcb : c.toNat < b.toNat
        · rw [if_pos hcb] at h2
          exact absurd h2 (by simp)
        · rw [if_pos (by omega)]
    · rw [if_neg hab] at h1
      by_cases hba : b.toNat < a.toNat
      · rw [if_pos hba] at h1
        exact absurd h1 (by simp)
      · rw [if_neg hba] at h1
        by_cases hbc : b.toNat < c.toNat
        · rw [if_pos (by omega)]
        · rw [if_neg hbc] at h2
          by_cases hcb : c.toNat < b.toNat
          · rw [if_pos hcb] at h2
            exact absurd h2 (by simp)
          · rw [if_neg hcb] at h2
            rw [if_neg (by omega), if_neg (by omega)]
            exact charsLt_trans as_ bs cs h1 h2

/-- Below one list and at or above another means below the other. -/
theorem charsLt_lt_of_nlt :
    ∀ a b c : List Char, charsLt a b = true → charsLt c b = false →
      charsLt a c = true
  | a, [], c, h1, _ => by
    rw [charsLt_nil_right] at h1; exact absurd h1 (by simp)
  | a, _ :: _, [], _, h2 => by
    rw [charsLt] at h2; exact absurd h2 (by simp)
  | [], _ :: _, _ :: _, _, _ => rfl
  | a :: as_, b :: bs, c :: cs, h1, h2 => by
    simp only [charsLt] at h1 h2 ⊢
    by_cases hcb : c.toNat < b.toNat
    · rw [if_pos hcb] at h2
      exact absurd h2 (by simp)
    · rw [if_neg hcb] at h2
      by_cases hab : a.toNat < b.toNat
      · rw [if_pos (by omega)]
      · rw [if_neg hab] at h1
        by_cases hba : b.toNat < a.toNat
        · rw [if_pos hba] at h1
          exact absurd h1 (by simp)
        · rw [if_neg hba] at h1
          by_cases hbc : b.toNat < c.toNat
          · rw [if_pos (by omega)]
          · rw [if_neg hbc] at h2
            rw [if_neg (by omega), if_neg (by omega)]
            exact charsLt_lt_of_nlt as_ bs cs h1 h2

/-- String `<` is asymmetric. -/
theorem strLt_asymm (a b : String) (h : strLt a b = true) :
    strLt b a = false := charsLt_asymm a.data b.data h

/-- String `<` is transitive. -/
theorem strLt_trans (a b c : String) (h1 : strLt a b = true)
    (h2 : strLt b c = true) : strLt a c = true :=
  charsLt_trans a.data b.data c.data h1 h2

/-- Strictly below `b` and at or above by `c` being not below `b`. -/
theorem strLt_lt_of_nlt (a b c : String) (h1 : strLt a b = true)
    (h2 : strLt c b = false) : strLt a c = true :=
  charsLt_lt_of_nlt a.data b.data c.data h1 h2

/-- Members of an insertion are the inserted element or old members. -/
theorem mem_insSorted (x y : String × PyValue) :
    ∀ l : List (String × PyValue), y ∈ insSorted x l → y = x ∨ y ∈ l
  | [], h => by
    simp [insSorted] at h
    exact Or.inl h
  | z :: zs, h => by
    simp only [insSorted] at h
    by_cases hlt : strLt x.1 z.1 = true
    · rw [if_pos hlt] at h
      rcases List.mem_cons.mp h with h2 | h2
      · exact Or.inl h2
      · exact Or.inr h2
    · rw [if_neg hlt] at h
      rcases List.mem_cons.mp h with h2 | h2
      · exact Or.inr (List.mem_cons.mpr (Or.inl h2))
      · rcases mem_insSorted x y zs h2 with h3 | h3
        · exact Or.inl h3
        · exact Or.inr (List.mem_cons_of_mem z h3)

/-- Insertion preserves key-sortedness. -/
theorem insSorted_pairwise (x : String × PyValue) :
    ∀ l : List (String × PyValue),
      l.Pairwise (fun a b => strLt b.1 a.1 = false) →
      (insSorted x l).Pairwise (fun a b => strLt b.1 a.1 = false)
  | [], _ => by simp [insSorted]
  | y :: ys, h => by
    simp only [insSorted]
    rcases List.pairwise_cons.mp h with ⟨hy, hys⟩
    by_cases hlt : strLt x.1 y.1 = true
    · rw [if_pos hlt]
      refine List.pairwise_cons.mpr ⟨?_, h⟩
      intro z hz
      rcases List.mem_cons.mp hz with h2 | h2
      · rw [h2]
        exact strLt_asymm x.1 y.1 hlt
      · cases hzx : strLt z.1 x.1 with
        | false => rfl
        | true =>
          exact absurd (strLt_trans z.1 x.1 y.1 hzx hlt)
            (by simp [hy z h2])
    · rw [if_neg hlt]
      refine List.pairwise_cons.mpr ⟨?_, insSorted_pairwise x ys hys⟩
      intro z hz
      rcases mem_insSorted x z ys hz with h2 | h2
      · rw [h2]
        simpa using hlt
      · exact hy z h2

/-- The result of key-sorting is key-sorted. -/
theorem sortByKey_pairwise :
    ∀ l : List (String × PyValue),
      (sortByKey l).Pairwise (fun a b => strLt b.1 a.1 = false)
  | [] => by simp [sortByKey]
  | x :: xs => insSorted_pairwise x (sortByKey xs) (sortByKey_pairwise xs)

/-- Inserting below every element is prepending. -/
theorem insSorted_front (x : String × PyValue) :
    ∀ l : List (String × PyValue),
      (∀ z ∈ l, strLt x.1 z.1 = true) → insSorted x l = x :: l
  | [], _ => rfl
  | z :: zs, h => by
    simp only [insSorted]
    rw [if_pos (h z (List.mem_cons_self z zs))]

/-- Filtering commutes with sorted insertion. -/
theorem filter_insSorted (p : String × PyValue → Bool)
    (x : String × PyValue) :
    ∀ l : List (String × PyValue),
      l.Pairwise (fun a b => strLt b.1 a.1 = false) →
      (insSorted x l).filter p =
        if p x then insSorted x (l.filter p) else l.filter p
  | [], _ => by
    by_cases hp : p x <;> simp [insSorted, List.filter_cons, hp]
  | y :: ys, h => by
    rcases List.pairwise_cons.mp h with ⟨hy, hys⟩
    simp only [insSorted]
    by_cases hlt : strLt x.1 y.1 = true
    · rw [if_pos hlt]
      by_cases hp : p x
      · rw [List.filter_cons, if_pos (by simpa using hp), if_pos hp]
        rw [insSorted_front x ((y :: ys).filter p)]
        intro z hz
        rcases List.mem_cons.mp (List.mem_of_mem_filter hz) with h2 | h2
        · rw [h2]
          exact hlt
        · exact strLt_lt_of_nlt x.1 y.1 z.1 hlt (hy z h2)
      · rw [List.filter_cons, if_neg (by simpa using hp), if_neg hp]
    · rw [if_neg hlt, List.filter_cons, filter_insSorted p x ys hys,
        List.filter_cons]
      by_cases hp : p x
      · by_cases hpy : p y
        · simp only [hp, hpy, if_true]
          simp only [insSorted]
          rw [if_neg hlt]
        · simp [hp, hpy]
      · by_cases hpy : p y
        · simp [hp, hpy]
        · simp [hp, hpy]

/-- Filtering commutes with key-sorting: dropping tagged keys before or
after the sort yields the same list. -/
theorem filter_sortByKey (p : String × PyValue → Bool) :
    ∀ l : List (String × PyValue),
      (sortByKey l).filter p = sortByKey (l.filter p)
  | [] => rfl
  | x :: xs => by
    simp only [sortByKey]
    rw [filter_insSorted p x (sortByKey xs) (sortByKey_pairwise xs)]
    by_cases hp : p x
    · rw [if_pos hp, List.filter_cons, if_pos (by simpa using hp),
        filter_sortByKey p xs]
      rfl
    · rw [if_neg hp, List.filter_cons, if_neg (by simpa using hp),
        filter_sortByKey p xs]


/-- C5: `unsafe_hash` fingerprints `jsanitize(self.as_dict())` — sanitized
with every optional flag at its default, in particular WITHOUT
`enum_values=True` — then flattens, orders and drops tag keys, and
serializes the result deterministically.  Sorting before dropping the
tagged keys (the code) equals dropping then sorting (the spec wording),
so with the enum flag corrected to `false` the pipelines coincide. -/
theorem C5_fingerprint_pipeline (fuel : Nat) (v : PyValue) :
    hashInput fuel v = fingerprintSpec false fuel v := by
  unfold hashInput fingerprintSpec
  cases hd : asDictOfV v with
  | error e => rfl
  | ok d =>
    simp only [except_bind_ok]
    cases hs : jsan fuel ⟨false, false, false, false⟩ (.dict d) with
    | error e => rfl
    | ok s =>
      simp only [except_bind_ok]
      cases s <;> try rfl
      case dict sd =>
        show (do
            let flat ← flattenAux [] sd
            serializePairs
              (List.filter (fun p => !containsSub p.1 "@") (sortByKey flat))) =
          (do
            let flat ← flattenAux [] sd
            serializePairs
              (sortByKey (List.filter (fun p => !containsSub p.1 "@") flat)))
        cases hf : flattenAux [] sd with
        | error e => rfl
        | ok flat =>
          simp only [except_bind_ok]
          rw [filter_sortByKey]

set_option maxRecDepth 4000 in
/-- C5 counterexample: `unsafe_hash` does NOT pass `enum_values=True` to
`jsanitize` as the spec states.  For an `MSONable` whose `as_dict`
carries an `Enum` member, the code path (default flags) keeps the
member's full tagged encoding — flattened to a surviving `e.value`
entry once the tag keys are dropped — while the spec pipeline with the
enum flag replaces the member by its bare value under the key `e`, so
the serialized fingerprint inputs differ. -/
theorem C5_enum_flag_counterexample :
    hashInput 20
      (.mson ⟨"mymod", "Thing", Option.none, ["self", "e"], [], Option.none⟩
        (.cons (.str "e") (.enumOf "emod" "Color" (.jint 5)) .nil) .none) ≠
    fingerprintSpec true 20
      (.mson ⟨"mymod", "Thing", Option.none, ["self", "e"], [], Option.none⟩
        (.cons (.str "e") (.enumOf "emod" "Color" (.jint 5)) .nil) .none) := by
  decide

/-- C8: loading the redirect table from a missing file is an empty table
and not a failure; a present but malformed file propagates the parse
error; and the empty table never redirects anything. -/
theorem C8_redirect_loading :
    loadRedirect .missing = .ok [] ∧
    (∀ e : PyErr, loadRedirect (.parseFail e) = .error e) ∧
    (∀ m c : String, lookupRedirect [] m c = Option.none) :=
  ⟨rfl, fun _ => rfl, fun _ _ => rfl⟩

/-- C7: a callable non-MSONable object is converted to the callable
reference payload when that succeeds; but when building the payload
fails (a bound method whose owner the encoder rejects), `jsanitize`
catches the `TypeError` and falls through — in the default non-strict
mode the object is stringified instead, so the failure does NOT
propagate as the spec states. -/
theorem C7_callable_payload_failure
    (info : ObjInfo) (bound : OptPy) (pyd dcf adict : PyDict)
    (n : Nat) (fl : SanFlags) (d : PyDict) (m : String) (ab ev : Bool)
    (hc : info.isCallable = true) (hm : info.isMSONable = false) :
    (serializeCallable info bound = .ok d →
      jsan (n + 1) fl (.obj info bound pyd dcf adict .none) =
        .ok (.dict d)) ∧
    (serializeCallable info bound = .error (.typeError m) →
      jsan (n + 1) ⟨false, ab, ev, false⟩
          (.obj info bound pyd dcf adict .none) =
        .ok (.str (pyStr (.obj info bound pyd dcf adict .none)))) := by
  constructor
  · intro hs
    simp [jsan, hc, hm, hs]
  · intro hs
    simp [jsan, hc, hm, hs]

/-- C7 witness: a free function serializes to the reference payload; a
bound method with an unserializable owner is stringified, not an error. -/
theorem C7_callable_payload_failure_witness :
    jsan 3 ⟨false, false, false, false⟩
      (.obj ⟨"mymod", "function", "f", Option.none,
          true, false, false, false, false, false⟩
        .none .nil .nil .nil .none) =
      .ok (.dict (.cons (.str "@module") (.str "mymod")
        (.cons (.str "@callable") (.str "f")
          (.cons (.str "@bound") .none .nil)))) ∧
    jsan 3 ⟨false, false, false, false⟩
      (.obj ⟨"mymod", "method", "C.g", Option.none,
          true, false, false, false, false, false⟩
        (.some (.obj ⟨"mymod", "C", "C", Option.none,
            false, false, false, false, false, false⟩
          .none .nil .nil .nil .none))
        .nil .nil .nil .none) =
      .ok (.str (pyStr (.obj ⟨"mymod", "method", "C.g", Option.none,
          true, false, false, false, false, false⟩
        (.some (.obj ⟨"mymod", "C", "C", Option.none,
            false, false, false, false, false, false⟩
          .none .nil .nil .nil .none))
        .nil .nil .nil .none))) :=
  ⟨(C7_callable_payload_failure
      ⟨"mymod", "function", "f", Option.none,
        true, false, false, false, false, false⟩
      .none .nil .nil .nil 2 ⟨false, false, false, false⟩
      (.cons (.str "@module") (.str "mymod")
        (.cons (.str "@callable") (.str "f")
          (.cons (.str "@bound") .none .nil)))
      "Only bound methods of classes or MSONable instances are supported."
      false false rfl rfl).1 rfl,
   (C7_callable_payload_failure
      ⟨"mymod", "method", "C.g", Option.none,
        true, false, false, false, false, false⟩
      (.some (.obj ⟨"mymod", "C", "C", Option.none,
          false, false, false, false, false, false⟩
        .none .nil .nil .nil .none))
      .nil .nil .nil 2 ⟨false, false, false, false⟩
      .nil
      "Only bound methods of classes or MSONable instances are supported."
      false false rfl rfl).2 rfl⟩

/-- C7 counterexample: the claim that a payload-construction failure
propagates out of `jsanitize` is false — the source catches the
`TypeError` (`except TypeError: pass`) and the default non-strict mode
returns the stringified object instead of an error. -/
theorem C7_swallow_counterexample :
    serializeCallable
        ⟨"amod", "method", "D.h", Option.none,
          true, false, false, false, false, false⟩
        (.some (.obj ⟨"amod", "D", "D", Option.none,
            false, false, false, false, false, false⟩
          .none .nil .nil .nil .none)) =
      .error (.typeError
        "Only bound methods of classes or MSONable instances are supported.") ∧
    jsan 3 ⟨false, false, false, false⟩
      (.obj ⟨"amod", "method", "D.h", Option.none,
          true, false, false, false, false, false⟩
        (.some (.obj ⟨"amod", "D", "D", Option.none,
            false, false, false, false, false, false⟩
          .none .nil .nil .nil .none))
        .nil .nil .nil .none) =
      .ok (.str "<method object>") :=
  ⟨rfl, rfl⟩

/-- Every value is at least one level deep. -/
theorem pyDepth_pos : ∀ x : PyValue, 1 ≤ pyDepth x := by
  intro x
  cases x <;> simp [pyDepth]

/-- Converting a `PyList` to a Lean list and back is the identity. -/
theorem pyListOfList_toList :
    ∀ xs : PyList, pyListOfList (pyListToList xs) = xs
  | .nil => rfl
  | .cons x tl => by
    simp only [pyListToList, pyListOfList]
    rw [pyListOfList_toList tl]

/-- Converting a `PyDict` to a pair list and back is the identity. -/
theorem pyDictOfPairs_toPairs :
    ∀ kvs : PyDict, pyDictOfPairs (pyDictToPairs kvs) = kvs
  | .nil => rfl
  | .cons k v tl => by
    simp only [pyDictToPairs, pyDictOfPairs]
    rw [pyDictOfPairs_toPairs tl]

/-- Elements of a plain list are plain and no deeper than the list. -/
theorem plain_mem_list :
    ∀ xs : PyList, isPlainList xs = true →
      ∀ y ∈ pyListToList xs, isPlain y = true ∧ pyDepth y ≤ pyDepthL xs
  | .nil, _, y, hy => absurd hy (by simp [pyListToList])
  | .cons x tl, h, y, hy => by
    simp only [isPlainList, Bool.and_eq_true] at h
    rcases List.mem_cons.mp hy with h2 | h2
    · constructor
      · rw [h2]; exact h.1
      · rw [h2]
        simp only [pyDepthL]
        exact Nat.le_max_left _ _
    · rcases plain_mem_list tl h.2 y h2 with ⟨ha, hb⟩
      refine ⟨ha, le_trans hb ?_⟩
      simp only [pyDepthL]
      exact Nat.le_max_right _ _

/-- Entries of a plain dict have string keys and plain, no-deeper
values. -/
theorem plain_mem_dict :
    ∀ kvs : PyDict, isPlainDict kvs = true →
      ∀ p ∈ pyDictToPairs kvs,
        (∃ k, p.1 = PyValue.str k) ∧ isPlain p.2 = true ∧
          pyDepth p.2 ≤ pyDepthD kvs
  | .nil, _, p, hp => absurd hp (by simp [pyDictToPairs])
  | .cons k v tl, h, p, hp => by
    cases k
    case str s =>
      simp only [isPlainDict, Bool.and_eq_true] at h
      rcases List.mem_cons.mp hp with h2 | h2
      · refine ⟨⟨s, by rw [h2]⟩, ?_, ?_⟩
        · rw [h2]; exact h.1
        · rw [h2]
          simp only [pyDepthD]
          exact Nat.le_max_left _ _
      · rcases plain_mem_dict tl h.2 p h2 with ⟨ha, hb, hc⟩
        refine ⟨ha, hb, le_trans hc ?_⟩
        simp only [pyDepthD]
        exact Nat.le_max_right _ _
    all_goals simp [isPlainDict] at h

/-- `mapM` of the sanitizer over elements it fixes is the identity. -/
theorem mapM_jsan_list (n : Nat) (fl : SanFlags) :
    ∀ l : List PyValue, (∀ y ∈ l, jsan n fl y = .ok y) →
      l.mapM (jsan n fl) = .ok l
  | [], _ => rfl
  | x :: tl, h => by
    rw [List.mapM_cons, h x (List.mem_cons_self x tl),
      mapM_jsan_list n fl tl (fun y hy => h y (List.mem_cons_of_mem x hy))]
    rfl

/-- `mapM` of the dict-entry sanitizer over string-keyed entries whose
values it fixes is the identity. -/
theorem mapM_jsan_pairs (n : Nat) (fl : SanFlags) :
    ∀ l : List (PyValue × PyValue),
      (∀ p ∈ l, (∃ k, p.1 = PyValue.str k) ∧ jsan n fl p.2 = .ok p.2) →
      l.mapM (fun p => do
        let v2 ← jsan n fl p.2
        pure (PyValue.str (pyStr p.1), v2)) = .ok l
  | [], _ => rfl
  | p :: tl, h => by
    rcases h p (List.mem_cons_self p tl) with ⟨⟨k, hk⟩, hv⟩
    rw [List.mapM_cons,
      mapM_jsan_pairs n fl tl (fun q hq => h q (List.mem_cons_of_mem p hq))]
    show (do
        let v2 ← jsan n fl p.2
        pure (PyValue.str (pyStr p.1), v2) : Except PyErr _) >>=
      (fun x => Except.ok tl >>= fun xs => pure (x :: xs)) = .ok (p :: tl)
    rw [hv, hk]
    show Except.ok ((PyValue.str (pyStr (PyValue.str k)), p.2) :: tl) =
      Except.ok (p :: tl)
    rw [show pyStr (PyValue.str k) = k from rfl, ← hk]

/-- The sanitizer fixes plain JSON-safe values, given fuel at least the
value's depth. -/
theorem jsan_plain_ok (fl : SanFlags) :
    ∀ (fuel : Nat) (x : PyValue), isPlain x = true → pyDepth x ≤ fuel →
      jsan fuel fl x = .ok x := by
  intro fuel
  induction fuel with
  | zero =>
    intro x hp hd
    have := pyDepth_pos x
    omega
  | succ n ih =>
    intro x hp hd
    cases x
    case none => rfl
    case bool b => rfl
    case int m => rfl
    case float q => rfl
    case str s => rfl
    case list xs =>
      have hxs : isPlainList xs = true := by simpa [isPlain] using hp
      have hdl : pyDepthL xs ≤ n := by
        have h2 : pyDepthL xs + 1 ≤ n + 1 := by
          simpa [pyDepth] using hd
        omega
      have hmap := mapM_jsan_list n fl (pyListToList xs)
        (fun (y : PyValue) hy => by
        rcases plain_mem_list xs hxs y hy with ⟨h1, h2⟩
        exact ih y h1 (le_trans h2 hdl))
      show (do
          let r ← (pyListToList xs).mapM (jsan n fl)
          Except.ok (PyValue.list (pyListOfList r))) =
        .ok (.list xs)
      rw [hmap, except_bind_ok, pyListOfList_toList]
    case dict kvs =>
      have hks : isPlainDict kvs = true := by simpa [isPlain] using hp
      have hdl : pyDepthD kvs ≤ n := by
        have h2 : pyDepthD kvs + 1 ≤ n + 1 := by
          simpa [pyDepth] using hd
        omega
      have hmap := mapM_jsan_pairs n fl (pyDictToPairs kvs)
        (fun (p : PyValue × PyValue) hp2 => by
        rcases plain_mem_dict kvs hks p hp2 with ⟨hk, h1, h2⟩
        exact ⟨hk, ih p.2 h1 (le_trans h2 hdl)⟩)
      show (do
          let r ← (pyDictToPairs kvs).mapM
            (fun (p : PyValue × PyValue) => do
              let v2 ← jsan n fl p.2
              pure (PyValue.str (pyStr p.1), v2))
          Except.ok (PyValue.dict (pyDictOfPairs r))) =
        .ok (.dict kvs)
      rw [hmap, except_bind_ok, pyDictOfPairs_toPairs]
    all_goals simp [isPlain] at hp

/-- C9: the sanitizer is idempotent on plain JSON-safe input — nested
primitives, lists and string-keyed dicts are fixed points, so running
`jsanitize` on its own output equals running it once (for any flag
combination and any fuel covering the value's nesting depth). -/
theorem C9_sanitizer_idempotent (fl : SanFlags) (fuel : Nat) (x : PyValue)
    (hp : isPlain x = true) (hd : pyDepth x ≤ fuel) :
    (jsan fuel fl x).bind (jsan fuel fl) = jsan fuel fl x := by
  have h := jsan_plain_ok fl fuel x hp hd
  rw [h]
  show jsan fuel fl x = .ok x
  exact h

/-- C9 witness: a nested plain value through the sanitizer twice. -/
theorem C9_sanitizer_idempotent_witness :
    isPlain (PyValue.dict (.cons (.str "a")
      (.list (.cons (.int 1) (.cons (.str "b") .nil)))
      (.cons (.str "c") (.float (3 : Rat)) .nil))) = true ∧
    pyDepth (PyValue.dict (.cons (.str "a")
      (.list (.cons (.int 1) (.cons (.str "b") .nil)))
      (.cons (.str "c") (.float (3 : Rat)) .nil))) ≤ 5 ∧
    (jsan 5 ⟨true, false, false, false⟩
        (PyValue.dict (.cons (.str "a")
          (.list (.cons (.int 1) (.cons (.str "b") .nil)))
          (.cons (.str "c") (.float (3 : Rat)) .nil)))).bind
      (jsan 5 ⟨true, false, false, false⟩) =
    jsan 5 ⟨true, false, false, false⟩
      (PyValue.dict (.cons (.str "a")
        (.list (.cons (.int 1) (.cons (.str "b") .nil)))
        (.cons (.str "c") (.float (3 : Rat)) .nil))) :=
  ⟨by decide, by decide,
    C9_sanitizer_idempotent ⟨true, false, false, false⟩ 5
      (PyValue.dict (.cons (.str "a")
        (.list (.cons (.int 1) (.cons (.str "b") .nil)))
        (.cons (.str "c") (.float (3 : Rat)) .nil)))
      (by decide) (by decide)⟩
